import Mathlib

/-!
Task tracker: entity, JSON repository, use cases and manager.

A shallow embedding of the Go packages `entity`, `repository`, `usecase` and
`manager` of the task tracker, followed by theorems about them.

Modelling conventions.

* Go's `int` is the 64-bit two's-complement integer of the usual build
  targets: `GoInt` is the subtype of `Int` between `minInt` and `maxInt`, and
  `intAdd` wraps around the way Go's `+` does.
* A `time.Time` is an instant (`Instant`), counted in nanoseconds from the zero
  value of `time.Time`. Its location and its monotonic clock reading are not
  modelled: the program is taken to run in the UTC time zone, and the
  timestamps of the file to be written with the zone `Z`. `time.Now()` is an
  explicit argument `now` of every function that reads the clock; a reading of
  the clock (`Time`) is an instant of the years 0 to 9999.
* The data file is described by what `loadTasks` can observe of it
  (`DataFile`): absent, zero bytes, a JSON array of task records, the JSON
  literal `null`, or contents that `json.Unmarshal` rejects. `os.ReadFile` and
  `os.WriteFile` are assumed not to fail. `json.MarshalIndent` fails on a
  timestamp whose year is outside 0 to 9999. The sections on the text of a
  timestamp and on the JSON document describe the file one level lower, by the
  document that stands in it, and follow Go's `time` and `encoding/json`
  packages there.
* A Go `string` is Unicode text: a string that is not valid UTF-8 is outside the
  model.
* Every repository and use-case function takes the data file and returns its
  Go result together with the data file after the call.
-/

namespace TaskTracker

/-! ## Go integers -/

/-- Smallest value of Go's 64-bit `int`. -/
def minInt : Int := -9223372036854775808

/-- Largest value of Go's 64-bit `int`. -/
def maxInt : Int := 9223372036854775807

/-- Go's `int`: an integer between `minInt` and `maxInt`. -/
abbrev GoInt : Type := { x : Int // minInt ≤ x ∧ x ≤ maxInt }

/-- Reduction of a mathematical integer to the `int` with the same low 64 bits. -/
def wrapInt (x : Int) : GoInt :=
  ⟨(x + 9223372036854775808) % 18446744073709551616 - 9223372036854775808, by
    unfold minInt maxInt
    omega⟩

/-- Go's `a + b` on `int`, wrapping around on overflow. -/
def intAdd (a b : GoInt) : GoInt := wrapInt (a.val + b.val)

instance instOfNatGoInt (n : Nat) : OfNat GoInt n := ⟨wrapInt n⟩

/-! ## Package `entity` -/

/-- Go's `type TaskStatus string`. -/
abbrev TaskStatus : Type := String

/-- Constant `TaskStatusToDo`. -/
def TaskStatusToDo : TaskStatus := "todo"

/-- Constant `TaskStatusInProgress`. -/
def TaskStatusInProgress : TaskStatus := "in-progress"

/-- Constant `TaskStatusDone`. -/
def TaskStatusDone : TaskStatus := "done"

/-! ### Values of `time.Time` -/

/-- A value of Go's `time.Time`: an instant, counted in nanoseconds from the zero
value of `time.Time` (1 January of the year 1, 00:00:00 UTC). The location of a
`time.Time` is not modelled: every instant is taken in UTC. -/
abbrev Instant : Type := Int

/-- Nanoseconds in a day. -/
def nanosPerDay : Int := 86400000000000

/-- The year of a day, counted from 1 January of the year 1, and the day within
that year, counted from 0: cycles of 400, 100, 4 and 1 years are cut off in
turn. -/
def yearAndDay (d : Int) : Int × Int :=
  let n400 := d / 146097
  let d1 := d % 146097
  let q100 := d1 / 36524
  let n100 := q100 - q100 / 4
  let d2 := d1 - 36524 * n100
  let n4 := d2 / 1461
  let d3 := d2 % 1461
  let q1 := d3 / 365
  let n1 := q1 - q1 / 4
  (400 * n400 + 100 * n100 + 4 * n4 + n1 + 1, d3 - 365 * n1)

/-- The method `Time.Year`, in UTC. -/
def yearOf (t : Instant) : Int :=
  (yearAndDay (t / nanosPerDay)).1

/-- Whether `Time.MarshalJSON` accepts the instant: it returns the error "year
outside of range [0,9999]" for every other one. -/
def marshalsTime (t : Instant) : Bool :=
  decide (0 ≤ yearOf t ∧ yearOf t ≤ 9999)

/-- A reading of the clock by `time.Now()`: an instant of the years 0 to 9999. -/
abbrev Time : Type := { t : Instant // marshalsTime t = true }

/-- The clock reading at an instant of the years 0 to 9999, and at the zero
instant otherwise. -/
def clockTime (x : Instant) : Time :=
  if h : marshalsTime x = true then ⟨x, h⟩ else ⟨0, by decide⟩

instance instOfNatTime (n : Nat) : OfNat Time n := ⟨clockTime n⟩

/-- The struct `entity.Task`. -/
structure Task where
  ID : GoInt
  Title : String
  Description : String
  Status : TaskStatus
  CreatedAt : Instant
  UpdatedAt : Instant
deriving DecidableEq, Repr

/-- Whether `json.Marshal` accepts the task: both timestamps have a year in the
range 0 to 9999. -/
def Task.marshals (t : Task) : Bool :=
  marshalsTime t.CreatedAt && marshalsTime t.UpdatedAt

/-- The constructor `NewTask`; `now` is the value of its `time.Now()`. -/
def NewTask (now : Time) (id : GoInt) (title description : String) : Task :=
  { ID := id
    Title := title
    Description := description
    Status := TaskStatusToDo
    CreatedAt := now.val
    UpdatedAt := now.val }

/-- The method `Task.UpdateStatus`. -/
def Task.UpdateStatus (t : Task) (now : Time) (status : TaskStatus) : Task :=
  { t with Status := status, UpdatedAt := now.val }

/-- The method `Task.Update`: an empty argument leaves its field alone. -/
def Task.Update (t : Task) (now : Time) (title description : String) : Task :=
  let t1 := if title ≠ "" then { t with Title := title } else t
  let t2 := if description ≠ "" then { t1 with Description := description } else t1
  { t2 with UpdatedAt := now.val }

/-- The function `IsValidStatus`. -/
def IsValidStatus (status : String) : Bool :=
  if status = TaskStatusToDo ∨ status = TaskStatusInProgress ∨ status = TaskStatusDone then
    true
  else
    false

/-! ## Errors -/

/-- The errors the packages build with `fmt.Errorf`; `context` is the `%w`
wrapping done by the use-case layer. -/
inductive TaskError where
  /-- Message "task title cannot be empty". -/
  | emptyTitle : TaskError
  /-- Message "invalid status ...", from the manager. -/
  | invalidStatus (status : String) : TaskError
  /-- Message "task with ID %d not found". -/
  | notFound (id : GoInt) : TaskError
  /-- Message "failed to unmarshal tasks: ...". -/
  | unmarshal : TaskError
  /-- Message "failed to marshal tasks: ...". -/
  | marshal : TaskError
  /-- A lower error wrapped with a message by `%w`. -/
  | context (msg : String) (cause : TaskError) : TaskError
deriving DecidableEq, Repr

/-- The innermost error of a `%w` chain. -/
def TaskError.rootCause : TaskError → TaskError
  | .context _ cause => cause.rootCause
  | e => e

/-! ## Package `repository` -/

/-- What `loadTasks` can observe of the data file. A JSON array element that is
not a task object (such as `null`) is outside the file format and not
represented. -/
inductive DataFile where
  /-- `os.Stat` reports that the file does not exist. -/
  | missing : DataFile
  /-- The file exists and has zero bytes. -/
  | empty : DataFile
  /-- The file holds a JSON array that decodes to these task records. A timestamp
  read from the file has a year in the range 0 to 9999, the only years its text
  can name; a list with another timestamp stands for no contents of the file. -/
  | tasks (ts : List Task) : DataFile
  /-- The file holds non-empty contents that `json.Unmarshal` rejects. -/
  | malformed (raw : String) : DataFile
  /-- The file holds the JSON literal `null`, which `json.Unmarshal` accepts for a
  slice and decodes to the nil slice. -/
  | jsonNull : DataFile
deriving DecidableEq, Repr

/-- Whether the file exists and has at least one byte. -/
def DataFile.hasContents : DataFile → Bool
  | .missing => false
  | .empty => false
  | .tasks _ => true
  | .malformed _ => true
  | .jsonNull => true

/-- Whether the contents of the file are a JSON array of task records. -/
def DataFile.isTaskArray : DataFile → Bool
  | .tasks _ => true
  | _ => false

deriving instance DecidableEq for Except

/-- The result of a repository or use-case call and the data file after it. -/
abbrev Outcome (α : Type) : Type := Except TaskError α × DataFile

/-- The method `loadTasks`. A `tasks ts` with a timestamp that no text of the file
can name is taken as contents that `json.Unmarshal` rejects. -/
def loadTasks (f : DataFile) : Except TaskError (List Task) :=
  match f with
  | .missing => .ok []
  | .empty => .ok []
  | .tasks ts => if ts.all Task.marshals then .ok ts else .error .unmarshal
  | .malformed _ => .error .unmarshal
  | .jsonNull => .ok []

/-- The method `saveTasks`: when `json.MarshalIndent` fails the error is returned
and nothing is written; otherwise the file is overwritten with the whole
collection. -/
def saveTasks (ts : List Task) (f : DataFile) : Outcome Unit :=
  if ts.all Task.marshals then (.ok (), .tasks ts) else (.error .marshal, f)

/-- The call `sort.Slice(tasks, func(i, j) bool { return tasks[i].ID < tasks[j].ID })`,
as an insertion sort on the ID. -/
def sortByID (ts : List Task) : List Task :=
  List.insertionSort (fun a b : Task => a.ID.val ≤ b.ID.val) ts

/-- The method `Create`. -/
def Create (task : Task) (f : DataFile) : Outcome Unit :=
  match loadTasks f with
  | .error e => (.error e, f)
  | .ok ts => saveTasks (ts ++ [task]) f

/-- The scan `for _, task := range tasks { if task.ID == id { return task } }`. -/
def findByID (id : GoInt) : List Task → Option Task
  | [] => none
  | t :: ts => if t.ID = id then some t else findByID id ts

/-- The method `GetByID`. -/
def GetByID (id : GoInt) (f : DataFile) : Outcome Task :=
  match loadTasks f with
  | .error e => (.error e, f)
  | .ok ts =>
    match findByID id ts with
    | some t => (.ok t, f)
    | none => (.error (.notFound id), f)

/-- The method `GetAll`. -/
def GetAll (f : DataFile) : Outcome (List Task) :=
  match loadTasks f with
  | .error e => (.error e, f)
  | .ok ts => (.ok (sortByID ts), f)

/-- The method `GetByStatus`. -/
def GetByStatus (status : TaskStatus) (f : DataFile) : Outcome (List Task) :=
  match loadTasks f with
  | .error e => (.error e, f)
  | .ok ts => (.ok (sortByID (ts.filter (fun t => t.Status = status))), f)

/-- The loop of `Update`: the first entry with the ID of `updated` is replaced;
`none` when the loop ends without a match. -/
def replaceFirst (updated : Task) : List Task → Option (List Task)
  | [] => none
  | t :: ts =>
    if t.ID = updated.ID then some (updated :: ts)
    else (replaceFirst updated ts).map (fun r => t :: r)

/-- The method `Update`. -/
def Update (updatedTask : Task) (f : DataFile) : Outcome Unit :=
  match loadTasks f with
  | .error e => (.error e, f)
  | .ok ts =>
    match replaceFirst updatedTask ts with
    | some ts1 => saveTasks ts1 f
    | none => (.error (.notFound updatedTask.ID), f)

/-- The loop of `Delete`: the first entry with the ID is cut out;
`none` when the loop ends without a match. -/
def removeFirst (id : GoInt) : List Task → Option (List Task)
  | [] => none
  | t :: ts =>
    if t.ID = id then some ts
    else (removeFirst id ts).map (fun r => t :: r)

/-- The method `Delete`. -/
def Delete (id : GoInt) (f : DataFile) : Outcome Unit :=
  match loadTasks f with
  | .error e => (.error e, f)
  | .ok ts =>
    match removeFirst id ts with
    | some ts1 => saveTasks ts1 f
    | none => (.error (.notFound id), f)

/-- The loop of `GetNextID`: the running maximum `maxID`. -/
def maxIDLoop (maxID : GoInt) : List Task → GoInt
  | [] => maxID
  | t :: ts => maxIDLoop (if t.ID.val > maxID.val then t.ID else maxID) ts

/-- The method `GetNextID`. -/
def GetNextID (f : DataFile) : Outcome GoInt :=
  match loadTasks f with
  | .error e => (.error e, f)
  | .ok ts =>
    if ts.length = 0 then (.ok 1, f)
    else (.ok (intAdd (maxIDLoop 0 ts) 1), f)

/-! ## Package `usecase` -/

/-- The method `TaskUseCase.CreateTask`. -/
def CreateTask (now : Time) (title description : String) (f : DataFile) : Outcome Task :=
  if title = "" then (.error .emptyTitle, f)
  else
    match GetNextID f with
    | (.error e, f1) => (.error (.context "failed to get next ID" e), f1)
    | (.ok id, f1) =>
      match Create (NewTask now id title description) f1 with
      | (.error e, f2) => (.error (.context "failed to create task" e), f2)
      | (.ok _, f2) => (.ok (NewTask now id title description), f2)

/-- The method `TaskUseCase.GetTask`. -/
def GetTask (id : GoInt) (f : DataFile) : Outcome Task :=
  match GetByID id f with
  | (.error e, f1) => (.error (.context "failed to get task" e), f1)
  | (.ok t, f1) => (.ok t, f1)

/-- The method `TaskUseCase.GetAllTasks`. -/
def GetAllTasks (f : DataFile) : Outcome (List Task) :=
  match GetAll f with
  | (.error e, f1) => (.error (.context "failed to get all tasks" e), f1)
  | (.ok ts, f1) => (.ok ts, f1)

/-- The method `TaskUseCase.GetTasksByStatus`. -/
def GetTasksByStatus (status : TaskStatus) (f : DataFile) : Outcome (List Task) :=
  match GetByStatus status f with
  | (.error e, f1) => (.error (.context "failed to get tasks by status" e), f1)
  | (.ok ts, f1) => (.ok ts, f1)

/-- The method `TaskUseCase.GetPendingTasks`. -/
def GetPendingTasks (f : DataFile) : Outcome (List Task) :=
  match GetByStatus TaskStatusToDo f with
  | (.error e, f1) => (.error (.context "failed to get todo tasks" e), f1)
  | (.ok todoTasks, f1) =>
    match GetByStatus TaskStatusInProgress f1 with
    | (.error e, f2) => (.error (.context "failed to get in-progress tasks" e), f2)
    | (.ok inProgressTasks, f2) => (.ok (todoTasks ++ inProgressTasks), f2)

/-- The method `TaskUseCase.UpdateTask`. -/
def UpdateTask (now : Time) (id : GoInt) (title description : String) (f : DataFile) :
    Outcome Task :=
  match GetByID id f with
  | (.error e, f1) => (.error (.context "failed to get task for update" e), f1)
  | (.ok task, f1) =>
    match Update (task.Update now title description) f1 with
    | (.error e, f2) => (.error (.context "failed to update task" e), f2)
    | (.ok _, f2) => (.ok (task.Update now title description), f2)

/-- The method `TaskUseCase.UpdateTaskStatus`. -/
def UpdateTaskStatus (now : Time) (id : GoInt) (status : TaskStatus) (f : DataFile) :
    Outcome Task :=
  match GetByID id f with
  | (.error e, f1) => (.error (.context "failed to get task for status update" e), f1)
  | (.ok task, f1) =>
    match Update (task.UpdateStatus now status) f1 with
    | (.error e, f2) => (.error (.context "failed to update task status" e), f2)
    | (.ok _, f2) => (.ok (task.UpdateStatus now status), f2)

/-- The method `TaskUseCase.DeleteTask`. -/
def DeleteTask (id : GoInt) (f : DataFile) : Outcome Unit :=
  match Delete id f with
  | (.error e, f1) => (.error (.context "failed to delete task" e), f1)
  | (.ok _, f1) => (.ok (), f1)

/-- The method `TaskUseCase.MarkTaskDone`. -/
def MarkTaskDone (now : Time) (id : GoInt) (f : DataFile) : Outcome Task :=
  UpdateTaskStatus now id TaskStatusDone f

/-- The method `TaskUseCase.MarkTaskInProgress`. -/
def MarkTaskInProgress (now : Time) (id : GoInt) (f : DataFile) : Outcome Task :=
  UpdateTaskStatus now id TaskStatusInProgress f

/-- The method `TaskUseCase.MarkTaskToDo`. -/
def MarkTaskToDo (now : Time) (id : GoInt) (f : DataFile) : Outcome Task :=
  UpdateTaskStatus now id TaskStatusToDo f

/-- A call of one use-case method, with its arguments and clock reading. -/
inductive UseCaseCall where
  | createTask (now : Time) (title description : String) : UseCaseCall
  | getTask (id : GoInt) : UseCaseCall
  | getAllTasks : UseCaseCall
  | getTasksByStatus (status : TaskStatus) : UseCaseCall
  | getPendingTasks : UseCaseCall
  | updateTask (now : Time) (id : GoInt) (title description : String) : UseCaseCall
  | updateTaskStatus (now : Time) (id : GoInt) (status : TaskStatus) : UseCaseCall
  | deleteTask (id : GoInt) : UseCaseCall
  | markTaskDone (now : Time) (id : GoInt) : UseCaseCall
  | markTaskInProgress (now : Time) (id : GoInt) : UseCaseCall
  | markTaskToDo (now : Time) (id : GoInt) : UseCaseCall
deriving DecidableEq, Repr

/-- The data file after one use-case call, whether it succeeded or failed. -/
def UseCaseCall.fileAfter (c : UseCaseCall) (f : DataFile) : DataFile :=
  match c with
  | .createTask now title description => (CreateTask now title description f).2
  | .getTask id => (GetTask id f).2
  | .getAllTasks => (GetAllTasks f).2
  | .getTasksByStatus status => (GetTasksByStatus status f).2
  | .getPendingTasks => (GetPendingTasks f).2
  | .updateTask now id title description => (UpdateTask now id title description f).2
  | .updateTaskStatus now id status => (UpdateTaskStatus now id status f).2
  | .deleteTask id => (DeleteTask id f).2
  | .markTaskDone now id => (MarkTaskDone now id f).2
  | .markTaskInProgress now id => (MarkTaskInProgress now id f).2
  | .markTaskToDo now id => (MarkTaskToDo now id f).2

/-- The method `TaskManager.AddTask`. -/
def TaskManager.AddTask (now : Time) (title description : String) (f : DataFile) :
    Outcome Task :=
  CreateTask now title description f

/-- The method `TaskManager.UpdateTaskStatus`, which takes the status as a string. -/
def TaskManager.UpdateTaskStatus (now : Time) (id : GoInt) (statusStr : String)
    (f : DataFile) : Outcome Task :=
  if ¬ IsValidStatus statusStr then (.error (.invalidStatus statusStr), f)
  else TaskTracker.UpdateTaskStatus now id statusStr f

/-- The method `TaskManager.UpdateTask`. -/
def TaskManager.UpdateTask (now : Time) (id : GoInt) (title description : String)
    (f : DataFile) : Outcome Task :=
  TaskTracker.UpdateTask now id title description f

/-- The method `TaskManager.DeleteTask`. -/
def TaskManager.DeleteTask (id : GoInt) (f : DataFile) : Outcome Unit :=
  TaskTracker.DeleteTask id f

/-- The method `TaskManager.GetTask`. -/
def TaskManager.GetTask (id : GoInt) (f : DataFile) : Outcome Task :=
  TaskTracker.GetTask id f

/-- The method `TaskManager.ListAllTasks`. -/
def TaskManager.ListAllTasks (f : DataFile) : Outcome (List Task) :=
  GetAllTasks f

/-- The method `TaskManager.ListDoneTasks`. -/
def TaskManager.ListDoneTasks (f : DataFile) : Outcome (List Task) :=
  GetTasksByStatus TaskStatusDone f

/-- The method `TaskManager.ListTodoTasks`. -/
def TaskManager.ListTodoTasks (f : DataFile) : Outcome (List Task) :=
  GetTasksByStatus TaskStatusToDo f

/-- The method `TaskManager.ListInProgressTasks`. -/
def TaskManager.ListInProgressTasks (f : DataFile) : Outcome (List Task) :=
  GetTasksByStatus TaskStatusInProgress f

/-- The method `TaskManager.ListPendingTasks`. -/
def TaskManager.ListPendingTasks (f : DataFile) : Outcome (List Task) :=
  GetPendingTasks f

/-- The method `TaskManager.MarkDone`. -/
def TaskManager.MarkDone (now : Time) (id : GoInt) (f : DataFile) : Outcome Task :=
  MarkTaskDone now id f

/-- The method `TaskManager.MarkInProgress`. -/
def TaskManager.MarkInProgress (now : Time) (id : GoInt) (f : DataFile) : Outcome Task :=
  MarkTaskInProgress now id f

/-- The method `TaskManager.MarkTodo`. -/
def TaskManager.MarkTodo (now : Time) (id : GoInt) (f : DataFile) : Outcome Task :=
  MarkTaskToDo now id f

/-- A call of one method of `TaskManager`, with its arguments and clock reading. -/
inductive ManagerCall where
  | addTask (now : Time) (title description : String) : ManagerCall
  | updateTask (now : Time) (id : GoInt) (title description : String) : ManagerCall
  | deleteTask (id : GoInt) : ManagerCall
  | getTask (id : GoInt) : ManagerCall
  | listAllTasks : ManagerCall
  | listDoneTasks : ManagerCall
  | listTodoTasks : ManagerCall
  | listInProgressTasks : ManagerCall
  | listPendingTasks : ManagerCall
  | markDone (now : Time) (id : GoInt) : ManagerCall
  | markInProgress (now : Time) (id : GoInt) : ManagerCall
  | markTodo (now : Time) (id : GoInt) : ManagerCall
  | updateTaskStatus (now : Time) (id : GoInt) (statusStr : String) : ManagerCall
deriving DecidableEq, Repr

/-- The data file after one manager call, whether it succeeded or failed. -/
def ManagerCall.fileAfter (c : ManagerCall) (f : DataFile) : DataFile :=
  match c with
  | .addTask now title description => (TaskManager.AddTask now title description f).2
  | .updateTask now id title description =>
    (TaskManager.UpdateTask now id title description f).2
  | .deleteTask id => (TaskManager.DeleteTask id f).2
  | .getTask id => (TaskManager.GetTask id f).2
  | .listAllTasks => (TaskManager.ListAllTasks f).2
  | .listDoneTasks => (TaskManager.ListDoneTasks f).2
  | .listTodoTasks => (TaskManager.ListTodoTasks f).2
  | .listInProgressTasks => (TaskManager.ListInProgressTasks f).2
  | .listPendingTasks => (TaskManager.ListPendingTasks f).2
  | .markDone now id => (TaskManager.MarkDone now id f).2
  | .markInProgress now id => (TaskManager.MarkInProgress now id f).2
  | .markTodo now id => (TaskManager.MarkTodo now id f).2
  | .updateTaskStatus now id statusStr =>
    (TaskManager.UpdateTaskStatus now id statusStr f).2

/-! ## Sequences of calls -/

/-- A call of one of the two mutating methods of a task, with its clock reading. -/
inductive TaskCall where
  | update (now : Time) (title description : String) : TaskCall
  | updateStatus (now : Time) (status : TaskStatus) : TaskCall
deriving DecidableEq, Repr

/-- The clock reading of a call. -/
def TaskCall.now : TaskCall → Time
  | .update now _ _ => now
  | .updateStatus now _ => now

/-- The task after one call of `Update` or `UpdateStatus`. -/
def TaskCall.applyTo (c : TaskCall) (t : Task) : Task :=
  match c with
  | .update now title description => t.Update now title description
  | .updateStatus now status => t.UpdateStatus now status

/-- The task after a sequence of calls, run in order. -/
def applyCalls : List TaskCall → Task → Task
  | [], t => t
  | c :: cs, t => applyCalls cs (c.applyTo t)

/-- The clock reading that the last call of a sequence took, and `now` when the
sequence is empty. -/
def latestReading (now : Time) : List TaskCall → Time
  | [] => now
  | c :: cs => latestReading c.now cs

/-! ## Predicates on the stored collection -/

/-- All IDs of the collection are positive and pairwise distinct. -/
def IDsPositiveDistinct (ts : List Task) : Prop :=
  (∀ t ∈ ts, 0 < t.ID.val) ∧ (ts.map (fun t => t.ID)).Nodup

instance instDecidableIDsPositiveDistinct (ts : List Task) :
    Decidable (IDsPositiveDistinct ts) := by
  unfold IDsPositiveDistinct
  infer_instance

/-- Every task of the collection has the status todo, in-progress or done. -/
def StatusesValid (ts : List Task) : Prop :=
  ∀ t ∈ ts, IsValidStatus t.Status = true

instance instDecidableStatusesValid (ts : List Task) : Decidable (StatusesValid ts) := by
  unfold StatusesValid
  infer_instance

/-! ## The text of a timestamp

`json.MarshalIndent` writes a `time.Time` through `Time.MarshalJSON`, and
`json.Unmarshal` reads it through `Time.UnmarshalJSON`: the text is the one of
RFC 3339 with nanoseconds. The functions below follow Go's `time` package (not
part of the repository) for an instant in UTC. A text is a list of characters; a
character outside ASCII fails every test of the reader, as its bytes do. -/

/-- A task record with ID `n`, status `st`, created and updated at instant 0. -/
def sampleTask (n : Nat) (title : String) (st : TaskStatus) : Task :=
  { ID := wrapInt n, Title := title, Description := "", Status := st,
    CreatedAt := 0, UpdatedAt := 0 }

/-- A task record whose ID is the largest `int`. -/
def largestIDTask : Task :=
  { ID := ⟨maxInt, by decide⟩, Title := "last", Description := "", Status := TaskStatusToDo,
    CreatedAt := 0, UpdatedAt := 0 }

theorem loadTasks_marshals (f : DataFile) (ts : List Task) (hload : loadTasks f = .ok ts) :
    ts.all Task.marshals = true := by
  cases f with
  | missing => simp only [loadTasks, Except.ok.injEq] at hload; subst hload; rfl
  | empty => simp only [loadTasks, Except.ok.injEq] at hload; subst hload; rfl
  | jsonNull => simp only [loadTasks, Except.ok.injEq] at hload; subst hload; rfl
  | malformed raw => simp only [loadTasks] at hload; cases hload
  | tasks us =>
    simp only [loadTasks] at hload
    by_cases h : us.all Task.marshals = true
    · rw [if_pos h] at hload
      simp only [Except.ok.injEq] at hload
      subst hload
      exact h
    · rw [if_neg h] at hload
      cases hload

theorem loadTasks_tasks (ts : List Task) (h : ts.all Task.marshals = true) :
    loadTasks (DataFile.tasks ts) = .ok ts := by
  simp only [loadTasks]
  rw [if_pos h]

theorem saveTasks_ok (ts : List Task) (f : DataFile) (h : ts.all Task.marshals = true) :
    saveTasks ts f = (.ok (), DataFile.tasks ts) := by
  unfold saveTasks
  rw [if_pos h]

theorem saveTasks_fail (ts : List Task) (f : DataFile) (h : ¬ ts.all Task.marshals = true) :
    saveTasks ts f = (.error .marshal, f) := by
  unfold saveTasks
  rw [if_neg h]

theorem saveTasks_snd (ts : List Task) (f : DataFile) :
    (saveTasks ts f).2 = f ∨
      ∃ ts1, ts1.all Task.marshals = true ∧ (saveTasks ts f).2 = DataFile.tasks ts1 := by
  by_cases h : ts.all Task.marshals = true
  · rw [saveTasks_ok ts f h]
    exact Or.inr ⟨ts, h, rfl⟩
  · rw [saveTasks_fail ts f h]
    exact Or.inl rfl

theorem NewTask_marshals (now : Time) (id : GoInt) (title description : String) :
    (NewTask now id title description).marshals = true := by
  unfold Task.marshals NewTask
  simp only [now.property, Bool.and_self]

theorem Task.UpdateStatus_marshals (t : Task) (now : Time) (status : TaskStatus)
    (h : t.marshals = true) : (t.UpdateStatus now status).marshals = true := by
  unfold Task.marshals at h ⊢
  unfold Task.UpdateStatus
  simp only [Bool.and_eq_true] at h ⊢
  exact ⟨h.1, now.property⟩

theorem Task.Update_marshals (t : Task) (now : Time) (title description : String)
    (h : t.marshals = true) : (t.Update now title description).marshals = true := by
  unfold Task.marshals at h ⊢
  unfold Task.Update
  simp only [Bool.and_eq_true] at h ⊢
  refine ⟨?_, now.property⟩
  by_cases h1 : title ≠ "" <;> by_cases h2 : description ≠ "" <;> simp [h1, h2, h.1]

theorem all_marshals_append (ts : List Task) (t : Task) (h : ts.all Task.marshals = true)
    (ht : t.marshals = true) : (ts ++ [t]).all Task.marshals = true := by
  rw [List.all_append, h, Bool.true_and]
  simp only [List.all_cons, List.all_nil, Bool.and_true]
  exact ht

theorem all_marshals_split (pre post : List Task) (t : Task) :
    (pre ++ t :: post).all Task.marshals = true ↔
      pre.all Task.marshals = true ∧ t.marshals = true ∧ post.all Task.marshals = true := by
  rw [List.all_append, List.all_cons]
  simp only [Bool.and_eq_true]

/-! ## Lemmas about the repository loops -/

theorem GetNextID_of_load (f : DataFile) (ts : List Task) (hload : loadTasks f = .ok ts) :
    GetNextID f = (.ok (if ts.length = 0 then 1 else intAdd (maxIDLoop 0 ts) 1), f) := by
  unfold GetNextID
  rw [hload]
  by_cases h : ts.length = 0 <;> simp [h]

theorem Create_of_load (task : Task) (f : DataFile) (ts : List Task)
    (hload : loadTasks f = .ok ts) (htask : task.marshals = true) :
    Create task f = (.ok (), DataFile.tasks (ts ++ [task])) := by
  unfold Create
  rw [hload]
  exact saveTasks_ok _ f (all_marshals_append ts task (loadTasks_marshals f ts hload) htask)

theorem CreateTask_of_load (f : DataFile) (ts : List Task) (now : Time)
    (title description : String) (hload : loadTasks f = .ok ts) (htitle : title ≠ "") :
    CreateTask now title description f =
      (.ok (NewTask now (if ts.length = 0 then 1 else intAdd (maxIDLoop 0 ts) 1)
        title description),
       DataFile.tasks (ts ++ [NewTask now (if ts.length = 0 then 1 else
        intAdd (maxIDLoop 0 ts) 1) title description])) := by
  unfold CreateTask
  rw [if_neg htitle, GetNextID_of_load f ts hload]
  simp only []
  rw [Create_of_load _ f ts hload (NewTask_marshals _ _ _ _)]

theorem maxIDLoop_ge_start (ts : List Task) :
    ∀ m : GoInt, m.val ≤ (maxIDLoop m ts).val := by
  induction ts with
  | nil => intro m; exact le_refl _
  | cons t ts ih =>
    intro m
    unfold maxIDLoop
    by_cases h : t.ID.val > m.val
    · rw [if_pos h]
      exact le_trans (le_of_lt h) (ih t.ID)
    · rw [if_neg h]
      exact ih m

theorem maxIDLoop_ge_mem (ts : List Task) :
    ∀ m : GoInt, ∀ t ∈ ts, t.ID.val ≤ (maxIDLoop m ts).val := by
  induction ts with
  | nil => intro m t ht; cases ht
  | cons u ts ih =>
    intro m t ht
    unfold maxIDLoop
    rcases List.mem_cons.mp ht with rfl | hmem
    · by_cases h : t.ID.val > m.val
      · rw [if_pos h]
        exact maxIDLoop_ge_start ts t.ID
      · rw [if_neg h]
        exact le_trans (not_lt.mp h) (maxIDLoop_ge_start ts m)
    · exact ih _ t hmem

theorem maxIDLoop_start_or_mem (ts : List Task) :
    ∀ m : GoInt, maxIDLoop m ts = m ∨ ∃ t ∈ ts, maxIDLoop m ts = t.ID := by
  induction ts with
  | nil => intro m; exact Or.inl rfl
  | cons u ts ih =>
    intro m
    unfold maxIDLoop
    by_cases h : u.ID.val > m.val
    · rw [if_pos h]
      rcases ih u.ID with h1 | ⟨t, ht, h1⟩
      · exact Or.inr ⟨u, List.mem_cons_self _ _, h1⟩
      · exact Or.inr ⟨t, List.mem_cons_of_mem _ ht, h1⟩
    · rw [if_neg h]
      rcases ih m with h1 | ⟨t, ht, h1⟩
      · exact Or.inl h1
      · exact Or.inr ⟨t, List.mem_cons_of_mem _ ht, h1⟩

theorem zero_val : ((0 : GoInt)).val = 0 := by decide

theorem one_val : ((1 : GoInt)).val = 1 := by decide

theorem intAdd_one_val_of_lt (a : GoInt) (h : a.val < maxInt) :
    (intAdd a 1).val = a.val + 1 := by
  have h1 := a.property.1
  unfold intAdd wrapInt
  simp only [one_val]
  unfold minInt at h1
  unfold maxInt at h
  omega

theorem GetByID_snd (id : GoInt) (f : DataFile) : (GetByID id f).2 = f := by
  unfold GetByID
  cases loadTasks f with
  | error e => rfl
  | ok ts =>
    simp only []
    cases findByID id ts <;> rfl

theorem GetByStatus_snd (status : TaskStatus) (f : DataFile) : (GetByStatus status f).2 = f := by
  unfold GetByStatus
  cases loadTasks f <;> rfl

theorem GetAll_snd (f : DataFile) : (GetAll f).2 = f := by
  unfold GetAll
  cases loadTasks f <;> rfl

theorem Update_snd (t : Task) (f : DataFile) :
    (Update t f).2 = f ∨
      ∃ ts, ts.all Task.marshals = true ∧ (Update t f).2 = DataFile.tasks ts := by
  unfold Update
  cases loadTasks f with
  | error e => exact Or.inl rfl
  | ok ts =>
    simp only []
    cases replaceFirst t ts with
    | none => exact Or.inl rfl
    | some ts1 => exact saveTasks_snd ts1 f

theorem Delete_snd (id : GoInt) (f : DataFile) :
    (Delete id f).2 = f ∨
      ∃ ts, ts.all Task.marshals = true ∧ (Delete id f).2 = DataFile.tasks ts := by
  unfold Delete
  cases loadTasks f with
  | error e => exact Or.inl rfl
  | ok ts =>
    simp only []
    cases removeFirst id ts with
    | none => exact Or.inl rfl
    | some ts1 => exact saveTasks_snd ts1 f

theorem Create_snd (t : Task) (f : DataFile) :
    (Create t f).2 = f ∨
      ∃ ts, ts.all Task.marshals = true ∧ (Create t f).2 = DataFile.tasks ts := by
  unfold Create
  cases loadTasks f with
  | error e => exact Or.inl rfl
  | ok ts => exact saveTasks_snd _ f

theorem GetNextID_snd (f : DataFile) : (GetNextID f).2 = f := by
  unfold GetNextID
  cases loadTasks f with
  | error e => rfl
  | ok ts =>
    simp only []
    split <;> rfl

theorem CreateTask_snd (now : Time) (title description : String) (f : DataFile) :
    (CreateTask now title description f).2 = f ∨
      ∃ ts, ts.all Task.marshals = true ∧ (CreateTask now title description f).2 = DataFile.tasks ts := by
  unfold CreateTask
  split
  · exact Or.inl rfl
  · have h1 := GetNextID_snd f
    rcases hg : GetNextID f with ⟨r, f1⟩
    rw [hg] at h1
    simp only [] at h1
    subst h1
    cases r with
    | error e => exact Or.inl rfl
    | ok id =>
      simp only []
      have h2 := Create_snd (NewTask now id title description) f1
      rcases hc : Create (NewTask now id title description) f1 with ⟨r2, f2⟩
      rw [hc] at h2
      cases r2 <;> exact h2

theorem GetTask_snd (id : GoInt) (f : DataFile) : (GetTask id f).2 = f := by
  unfold GetTask
  have h1 := GetByID_snd id f
  rcases hg : GetByID id f with ⟨r, f1⟩
  rw [hg] at h1
  cases r <;> exact h1

theorem GetAllTasks_snd (f : DataFile) : (GetAllTasks f).2 = f := by
  unfold GetAllTasks
  have h1 := GetAll_snd f
  rcases hg : GetAll f with ⟨r, f1⟩
  rw [hg] at h1
  cases r <;> exact h1

theorem GetTasksByStatus_snd (status : TaskStatus) (f : DataFile) :
    (GetTasksByStatus status f).2 = f := by
  unfold GetTasksByStatus
  have h1 := GetByStatus_snd status f
  rcases hg : GetByStatus status f with ⟨r, f1⟩
  rw [hg] at h1
  cases r <;> exact h1

theorem GetPendingTasks_snd (f : DataFile) : (GetPendingTasks f).2 = f := by
  unfold GetPendingTasks
  have h1 := GetByStatus_snd TaskStatusToDo f
  rcases hg : GetByStatus TaskStatusToDo f with ⟨r, f1⟩
  rw [hg] at h1
  simp only [] at h1
  subst h1
  cases r with
  | error e => rfl
  | ok todoTasks =>
    simp only []
    have h2 := GetByStatus_snd TaskStatusInProgress f1
    rcases hg2 : GetByStatus TaskStatusInProgress f1 with ⟨r2, f2⟩
    rw [hg2] at h2
    cases r2 <;> exact h2

theorem UpdateTask_snd (now : Time) (id : GoInt) (title description : String) (f : DataFile) :
    (UpdateTask now id title description f).2 = f ∨
      ∃ ts, ts.all Task.marshals = true ∧ (UpdateTask now id title description f).2 = DataFile.tasks ts := by
  unfold UpdateTask
  have h1 := GetByID_snd id f
  rcases hg : GetByID id f with ⟨r, f1⟩
  rw [hg] at h1
  simp only [] at h1
  subst h1
  cases r with
  | error e => exact Or.inl rfl
  | ok task =>
    simp only []
    have h2 := Update_snd (task.Update now title description) f1
    rcases hc : Update (task.Update now title description) f1 with ⟨r2, f2⟩
    rw [hc] at h2
    cases r2 <;> exact h2

theorem UpdateTaskStatus_snd (now : Time) (id : GoInt) (status : TaskStatus) (f : DataFile) :
    (UpdateTaskStatus now id status f).2 = f ∨
      ∃ ts, ts.all Task.marshals = true ∧ (UpdateTaskStatus now id status f).2 = DataFile.tasks ts := by
  unfold UpdateTaskStatus
  have h1 := GetByID_snd id f
  rcases hg : GetByID id f with ⟨r, f1⟩
  rw [hg] at h1
  simp only [] at h1
  subst h1
  cases r with
  | error e => exact Or.inl rfl
  | ok task =>
    simp only []
    have h2 := Update_snd (task.UpdateStatus now status) f1
    rcases hc : Update (task.UpdateStatus now status) f1 with ⟨r2, f2⟩
    rw [hc] at h2
    cases r2 <;> exact h2

theorem DeleteTask_snd (id : GoInt) (f : DataFile) :
    (DeleteTask id f).2 = f ∨ ∃ ts, ts.all Task.marshals = true ∧ (DeleteTask id f).2 = DataFile.tasks ts := by
  unfold DeleteTask
  have h1 := Delete_snd id f
  rcases hg : Delete id f with ⟨r, f1⟩
  rw [hg] at h1
  cases r <;> exact h1

theorem findByID_split (id : GoInt) (ts : List Task) (hmem : ∃ t ∈ ts, t.ID = id) :
    ∃ (stored : Task) (pre post : List Task),
      ts = pre ++ stored :: post ∧ (∀ t ∈ pre, t.ID ≠ id) ∧ stored.ID = id := by
  induction ts with
  | nil =>
    obtain ⟨t, ht, _⟩ := hmem
    cases ht
  | cons u us ih =>
    by_cases hu : u.ID = id
    · exact ⟨u, [], us, rfl, fun t ht => absurd ht (List.not_mem_nil t), hu⟩
    · obtain ⟨t, ht, hid⟩ := hmem
      rcases List.mem_cons.mp ht with rfl | hmem1
      · exact absurd hid hu
      · obtain ⟨stored, pre, post, h1, h2, h3⟩ := ih ⟨t, hmem1, hid⟩
        refine ⟨stored, u :: pre, post, by rw [h1]; rfl, ?_, h3⟩
        intro t1 ht1
        rcases List.mem_cons.mp ht1 with rfl | h4
        · exact hu
        · exact h2 t1 h4

theorem findByID_append (id : GoInt) (x : Task) (post : List Task) (hx : x.ID = id) :
    ∀ pre : List Task, (∀ t ∈ pre, t.ID ≠ id) → findByID id (pre ++ x :: post) = some x := by
  intro pre
  induction pre with
  | nil =>
    intro _
    simp only [List.nil_append, findByID]
    rw [if_pos hx]
  | cons u us ih =>
    intro h
    show findByID id (u :: (us ++ x :: post)) = some x
    unfold findByID
    rw [if_neg (h u (List.mem_cons_self _ _))]
    exact ih (fun t ht => h t (List.mem_cons_of_mem _ ht))

theorem replaceFirst_append (x stored : Task) (post : List Task) (hx : stored.ID = x.ID) :
    ∀ pre : List Task, (∀ t ∈ pre, t.ID ≠ x.ID) →
      replaceFirst x (pre ++ stored :: post) = some (pre ++ x :: post) := by
  intro pre
  induction pre with
  | nil =>
    intro _
    simp only [List.nil_append, replaceFirst]
    rw [if_pos hx]
  | cons u us ih =>
    intro h
    have hrec := ih (fun t ht => h t (List.mem_cons_of_mem _ ht))
    show replaceFirst x (u :: (us ++ stored :: post)) = some (u :: (us ++ x :: post))
    unfold replaceFirst
    rw [if_neg (h u (List.mem_cons_self _ _)), hrec]
    rfl

theorem update_first_match (f : DataFile) (ts : List Task) (id : GoInt) (g : Task → Task)
    (hg : ∀ t, (g t).ID = t.ID) (hgm : ∀ t, t.marshals = true → (g t).marshals = true)
    (hload : loadTasks f = .ok ts) (hmem : ∃ t ∈ ts, t.ID = id) :
    ∃ (stored : Task) (pre post : List Task),
      ts = pre ++ stored :: post ∧ (∀ t ∈ pre, t.ID ≠ id) ∧ stored.ID = id ∧
      GetByID id f = (.ok stored, f) ∧
      Update (g stored) f = (.ok (), DataFile.tasks (pre ++ g stored :: post)) ∧
      (GetByID id (DataFile.tasks (pre ++ g stored :: post))).1 = .ok (g stored) := by
  obtain ⟨stored, pre, post, hsplit, hpre, hid⟩ := findByID_split id ts hmem
  have hgid : (g stored).ID = id := by rw [hg, hid]
  have hall : (pre ++ g stored :: post).all Task.marshals = true := by
    have h0 := loadTasks_marshals f ts hload
    rw [hsplit, all_marshals_split] at h0
    rw [all_marshals_split]
    exact ⟨h0.1, hgm stored h0.2.1, h0.2.2⟩
  refine ⟨stored, pre, post, hsplit, hpre, hid, ?_, ?_, ?_⟩
  · unfold GetByID
    rw [hload]
    simp only []
    rw [hsplit, findByID_append id stored post hid pre hpre]
  · unfold Update
    rw [hload]
    simp only []
    rw [hsplit, replaceFirst_append (g stored) stored post (by rw [hid, hgid]) pre
      (by rw [hgid]; exact hpre)]
    exact saveTasks_ok _ f hall
  · unfold GetByID
    rw [loadTasks_tasks _ hall]
    simp only []
    rw [findByID_append id (g stored) post hgid pre hpre]

theorem Task.Update_ID (t : Task) (now : Time) (title description : String) :
    (t.Update now title description).ID = t.ID := by
  unfold Task.Update
  by_cases h1 : title ≠ "" <;> by_cases h2 : description ≠ "" <;> simp [h1, h2]

theorem sortByID_perm (ts : List Task) : (sortByID ts).Perm ts :=
  List.perm_insertionSort _ ts

theorem sortByID_sorted (ts : List Task) :
    (sortByID ts).Pairwise (fun a b => a.ID.val ≤ b.ID.val) := by
  haveI : IsTotal Task (fun a b => a.ID.val ≤ b.ID.val) := ⟨fun a b => le_total _ _⟩
  haveI : IsTrans Task (fun a b => a.ID.val ≤ b.ID.val) := ⟨fun _ _ _ h1 h2 => le_trans h1 h2⟩
  exact List.sorted_insertionSort _ ts

theorem GetByStatus_of_load (status : TaskStatus) (f : DataFile) (ts : List Task)
    (hload : loadTasks f = .ok ts) :
    GetByStatus status f = (.ok (sortByID (ts.filter (fun t => t.Status = status))), f) := by
  unfold GetByStatus
  rw [hload]

theorem GetPendingTasks_of_load (f : DataFile) (ts : List Task)
    (hload : loadTasks f = .ok ts) :
    GetPendingTasks f =
      (.ok (sortByID (ts.filter (fun t => t.Status = TaskStatusToDo)) ++
        sortByID (ts.filter (fun t => t.Status = TaskStatusInProgress))), f) := by
  unfold GetPendingTasks
  rw [GetByStatus_of_load TaskStatusToDo f ts hload]
  simp only []
  rw [GetByStatus_of_load TaskStatusInProgress f ts hload]

theorem findByID_none (id : GoInt) (ts : List Task) (h : ∀ u ∈ ts, u.ID ≠ id) :
    findByID id ts = none := by
  induction ts with
  | nil => rfl
  | cons u us ih =>
    unfold findByID
    rw [if_neg (h u (List.mem_cons_self _ _))]
    exact ih (fun t ht => h t (List.mem_cons_of_mem _ ht))

theorem removeFirst_none (id : GoInt) (ts : List Task) (h : ∀ u ∈ ts, u.ID ≠ id) :
    removeFirst id ts = none := by
  induction ts with
  | nil => rfl
  | cons u us ih =>
    unfold removeFirst
    rw [if_neg (h u (List.mem_cons_self _ _)), ih (fun t ht => h t (List.mem_cons_of_mem _ ht))]
    rfl

theorem removeFirst_append (id : GoInt) (stored : Task) (post : List Task)
    (hx : stored.ID = id) :
    ∀ pre : List Task, (∀ t ∈ pre, t.ID ≠ id) →
      removeFirst id (pre ++ stored :: post) = some (pre ++ post) := by
  intro pre
  induction pre with
  | nil =>
    intro _
    simp only [List.nil_append, removeFirst]
    rw [if_pos hx]
  | cons u us ih =>
    intro h
    have hrec := ih (fun t ht => h t (List.mem_cons_of_mem _ ht))
    show removeFirst id (u :: (us ++ stored :: post)) = some (u :: (us ++ post))
    unfold removeFirst
    rw [if_neg (h u (List.mem_cons_self _ _)), hrec]
    rfl

theorem mem_or_forall_ne (id : GoInt) (ts : List Task) :
    (∃ t ∈ ts, t.ID = id) ∨ ∀ u ∈ ts, u.ID ≠ id := by
  by_cases h : ∃ t ∈ ts, t.ID = id
  · exact Or.inl h
  · exact Or.inr (fun u hu hid => h ⟨u, hu, hid⟩)

theorem Delete_not_found (id : GoInt) (f : DataFile) (ts : List Task)
    (hload : loadTasks f = .ok ts) (h : ∀ u ∈ ts, u.ID ≠ id) :
    Delete id f = (.error (.notFound id), f) := by
  unfold Delete
  rw [hload]
  simp only []
  rw [removeFirst_none id ts h]

theorem Delete_found (id : GoInt) (f : DataFile) (ts pre post : List Task) (stored : Task)
    (hload : loadTasks f = .ok ts) (hsplit : ts = pre ++ stored :: post)
    (hpre : ∀ t ∈ pre, t.ID ≠ id) (hid : stored.ID = id) :
    Delete id f = (.ok (), DataFile.tasks (pre ++ post)) := by
  unfold Delete
  rw [hload]
  simp only []
  rw [hsplit, removeFirst_append id stored post hid pre hpre]
  have h0 := loadTasks_marshals f ts hload
  rw [hsplit, all_marshals_split] at h0
  exact saveTasks_ok _ f (by rw [List.all_append, h0.1, h0.2.2]; rfl)

theorem GetByID_not_found (id : GoInt) (f : DataFile) (ts : List Task)
    (hload : loadTasks f = .ok ts) (h : ∀ u ∈ ts, u.ID ≠ id) :
    GetByID id f = (.error (.notFound id), f) := by
  unfold GetByID
  rw [hload]
  simp only []
  rw [findByID_none id ts h]

theorem nodup_split_post (pre post : List Task) (stored : Task)
    (h : ((pre ++ stored :: post).map (fun t => t.ID)).Nodup) :
    ∀ u ∈ post, u.ID ≠ stored.ID := by
  intro u hu heq
  rw [List.map_append, List.map_cons] at h
  have h1 := (List.nodup_append.mp h).2.1
  have h2 := (List.nodup_cons.mp h1).1
  exact h2 (List.mem_map.mpr ⟨u, hu, heq⟩)

theorem findByID_of_nodup (ts : List Task) (h : (ts.map (fun t => t.ID)).Nodup) :
    ∀ t ∈ ts, findByID t.ID ts = some t := by
  induction ts with
  | nil => intro t ht; exact absurd ht (List.not_mem_nil t)
  | cons u us ih =>
    intro t ht
    rw [List.map_cons] at h
    have hnd := List.nodup_cons.mp h
    unfold findByID
    rcases List.mem_cons.mp ht with rfl | hmem
    · rw [if_pos rfl]
    · have hne : u.ID ≠ t.ID := by
        intro heq
        exact hnd.1 (List.mem_map.mpr ⟨t, hmem, heq.symm⟩)
      rw [if_neg hne]
      exact ih hnd.2 t hmem

theorem nodup_remove (pre post : List Task) (stored : Task)
    (h : ((pre ++ stored :: post).map (fun t => t.ID)).Nodup) :
    ((pre ++ post).map (fun t => t.ID)).Nodup := by
  have hsub : List.Sublist (pre ++ post) (pre ++ stored :: post) :=
    List.Sublist.append (List.Sublist.refl pre) (List.sublist_cons_self stored post)
  exact List.Nodup.sublist (hsub.map _) h

theorem GetTask_of_find (id : GoInt) (f : DataFile) (ts : List Task) (t : Task)
    (hload : loadTasks f = .ok ts) (hfind : findByID id ts = some t) :
    GetTask id f = (.ok t, f) := by
  unfold GetTask GetByID
  rw [hload]
  simp only []
  rw [hfind]

theorem GetTask_not_found (id : GoInt) (f : DataFile) (ts : List Task)
    (hload : loadTasks f = .ok ts) (h : ∀ u ∈ ts, u.ID ≠ id) :
    GetTask id f = (.error (.context "failed to get task" (.notFound id)), f) := by
  unfold GetTask
  rw [GetByID_not_found id f ts hload h]

theorem DeleteTask_ok_split (id : GoInt) (f : DataFile) (ts : List Task)
    (hload : loadTasks f = .ok ts) (hdel : (DeleteTask id f).1 = .ok ()) :
    ∃ (stored : Task) (pre post : List Task),
      ts = pre ++ stored :: post ∧ (∀ t ∈ pre, t.ID ≠ id) ∧ stored.ID = id ∧
      DeleteTask id f = (.ok (), DataFile.tasks (pre ++ post)) := by
  rcases mem_or_forall_ne id ts with hmem | hnone
  · obtain ⟨stored, pre, post, hsplit, hpre, hid⟩ := findByID_split id ts hmem
    refine ⟨stored, pre, post, hsplit, hpre, hid, ?_⟩
    unfold DeleteTask
    rw [Delete_found id f ts pre post stored hload hsplit hpre hid]
  · exfalso
    unfold DeleteTask at hdel
    rw [Delete_not_found id f ts hload hnone] at hdel
    simp at hdel

theorem UpdateTask_cases (f : DataFile) (ts : List Task) (now : Time) (id : GoInt)
    (title description : String) (hload : loadTasks f = .ok ts) :
    ((∀ u ∈ ts, u.ID ≠ id) ∧ UpdateTask now id title description f =
        (.error (.context "failed to get task for update" (.notFound id)), f)) ∨
    (∃ (stored : Task) (pre post : List Task),
      ts = pre ++ stored :: post ∧ (∀ t ∈ pre, t.ID ≠ id) ∧ stored.ID = id ∧
      UpdateTask now id title description f =
        (.ok (stored.Update now title description),
         DataFile.tasks (pre ++ stored.Update now title description :: post))) := by
  rcases mem_or_forall_ne id ts with hmem | hnone
  · obtain ⟨stored, pre, post, hsplit, hpre, hid, hget, hupd, _⟩ :=
      update_first_match f ts id (fun t => t.Update now title description)
        (fun t => Task.Update_ID t now title description)
        (fun t ht => Task.Update_marshals t now title description ht) hload hmem
    refine Or.inr ⟨stored, pre, post, hsplit, hpre, hid, ?_⟩
    unfold UpdateTask
    rw [hget]
    simp only []
    rw [hupd]
  · refine Or.inl ⟨hnone, ?_⟩
    unfold UpdateTask
    rw [GetByID_not_found id f ts hload hnone]

theorem UpdateTaskStatus_cases (f : DataFile) (ts : List Task) (now : Time) (id : GoInt)
    (status : TaskStatus) (hload : loadTasks f = .ok ts) :
    ((∀ u ∈ ts, u.ID ≠ id) ∧ UpdateTaskStatus now id status f =
        (.error (.context "failed to get task for status update" (.notFound id)), f)) ∨
    (∃ (stored : Task) (pre post : List Task),
      ts = pre ++ stored :: post ∧ (∀ t ∈ pre, t.ID ≠ id) ∧ stored.ID = id ∧
      UpdateTaskStatus now id status f =
        (.ok (stored.UpdateStatus now status),
         DataFile.tasks (pre ++ stored.UpdateStatus now status :: post))) := by
  rcases mem_or_forall_ne id ts with hmem | hnone
  · obtain ⟨stored, pre, post, hsplit, hpre, hid, hget, hupd, _⟩ :=
      update_first_match f ts id (fun t => t.UpdateStatus now status) (fun _ => rfl)
        (fun t ht => Task.UpdateStatus_marshals t now status ht) hload hmem
    refine Or.inr ⟨stored, pre, post, hsplit, hpre, hid, ?_⟩
    unfold UpdateTaskStatus
    rw [hget]
    simp only []
    rw [hupd]
  · refine Or.inl ⟨hnone, ?_⟩
    unfold UpdateTaskStatus
    rw [GetByID_not_found id f ts hload hnone]

theorem DeleteTask_cases (f : DataFile) (ts : List Task) (id : GoInt)
    (hload : loadTasks f = .ok ts) :
    ((∀ u ∈ ts, u.ID ≠ id) ∧ DeleteTask id f =
        (.error (.context "failed to delete task" (.notFound id)), f)) ∨
    (∃ (stored : Task) (pre post : List Task),
      ts = pre ++ stored :: post ∧ (∀ t ∈ pre, t.ID ≠ id) ∧ stored.ID = id ∧
      DeleteTask id f = (.ok (), DataFile.tasks (pre ++ post))) := by
  rcases mem_or_forall_ne id ts with hmem | hnone
  · obtain ⟨stored, pre, post, hsplit, hpre, hid⟩ := findByID_split id ts hmem
    refine Or.inr ⟨stored, pre, post, hsplit, hpre, hid, ?_⟩
    unfold DeleteTask
    rw [Delete_found id f ts pre post stored hload hsplit hpre hid]
  · refine Or.inl ⟨hnone, ?_⟩
    unfold DeleteTask
    rw [Delete_not_found id f ts hload hnone]

theorem CreateTask_cases (f : DataFile) (ts : List Task) (now : Time)
    (title description : String) (hload : loadTasks f = .ok ts) :
    (title = "" ∧ CreateTask now title description f = (.error .emptyTitle, f)) ∨
    (title ≠ "" ∧ CreateTask now title description f =
      (.ok (NewTask now (if ts.length = 0 then 1 else intAdd (maxIDLoop 0 ts) 1)
        title description),
       DataFile.tasks (ts ++ [NewTask now (if ts.length = 0 then 1 else
        intAdd (maxIDLoop 0 ts) 1) title description]))) := by
  by_cases htitle : title = ""
  · refine Or.inl ⟨htitle, ?_⟩
    unfold CreateTask
    rw [if_pos htitle]
  · exact Or.inr ⟨htitle, CreateTask_of_load f ts now title description hload htitle⟩

theorem GetTasksByStatus_of_load (status : TaskStatus) (f : DataFile) (ts : List Task)
    (hload : loadTasks f = .ok ts) :
    GetTasksByStatus status f
      = (.ok (sortByID (ts.filter (fun t => t.Status = status))), f) := by
  unfold GetTasksByStatus
  rw [GetByStatus_of_load status f ts hload]

theorem nextID_above (ts : List Task) (hroom : ∀ t ∈ ts, t.ID.val < maxInt) :
    0 < (if ts.length = 0 then (1 : GoInt) else intAdd (maxIDLoop 0 ts) 1).val ∧
      ∀ t ∈ ts, t.ID.val < (if ts.length = 0 then (1 : GoInt)
        else intAdd (maxIDLoop 0 ts) 1).val := by
  by_cases h0 : ts.length = 0
  · have hnil : ts = [] := List.length_eq_zero.mp h0
    subst hnil
    exact ⟨by decide, fun t ht => absurd ht (List.not_mem_nil t)⟩
  · rw [if_neg h0]
    have hM0 : (0 : Int) ≤ (maxIDLoop 0 ts).val := by
      have := maxIDLoop_ge_start ts 0
      rwa [zero_val] at this
    have hlt : (maxIDLoop 0 ts).val < maxInt := by
      rcases maxIDLoop_start_or_mem ts 0 with h | ⟨m, hm, h⟩
      · rw [h, zero_val]
        decide
      · rw [h]
        exact hroom m hm
    rw [intAdd_one_val_of_lt _ hlt]
    refine ⟨by omega, ?_⟩
    intro t ht
    have := maxIDLoop_ge_mem ts 0 t ht
    omega

theorem IDsPositiveDistinct_of_map_eq (ts ts1 : List Task)
    (hmap : ts1.map (fun t => t.ID) = ts.map (fun t => t.ID))
    (h : IDsPositiveDistinct ts) : IDsPositiveDistinct ts1 := by
  unfold IDsPositiveDistinct at *
  constructor
  · intro t ht
    have hmem : t.ID ∈ ts1.map (fun t => t.ID) := List.mem_map.mpr ⟨t, ht, rfl⟩
    rw [hmap] at hmem
    obtain ⟨u, hu, hid⟩ := List.mem_map.mp hmem
    have hpos := h.1 u hu
    rw [← hid]
    exact hpos
  · rw [hmap]
    exact h.2

theorem IDsPositiveDistinct_sublist (ts ts1 : List Task) (hsub : List.Sublist ts1 ts)
    (h : IDsPositiveDistinct ts) : IDsPositiveDistinct ts1 :=
  ⟨fun t ht => h.1 t (hsub.subset ht), List.Nodup.sublist (hsub.map _) h.2⟩

theorem IDsPositiveDistinct_append (ts : List Task) (x : Task) (hpos : 0 < x.ID.val)
    (habove : ∀ t ∈ ts, t.ID.val < x.ID.val) (h : IDsPositiveDistinct ts) :
    IDsPositiveDistinct (ts ++ [x]) := by
  unfold IDsPositiveDistinct at *
  constructor
  · intro t ht
    rcases List.mem_append.mp ht with h1 | h1
    · exact h.1 t h1
    · rw [List.mem_singleton.mp h1]
      exact hpos
  · rw [List.map_append, List.nodup_append]
    refine ⟨h.2, List.nodup_singleton _, ?_⟩
    intro i hi hi2
    obtain ⟨u, hu, hid⟩ := List.mem_map.mp hi
    have hx : i = x.ID := by simpa using hi2
    have := habove u hu
    rw [hid, hx] at this
    exact lt_irrefl _ this

theorem loadTasks_after (f g : DataFile) (ts written : List Task)
    (hload : loadTasks f = .ok ts)
    (hsnd : g = f ∨ ∃ ts1, ts1.all Task.marshals = true ∧ g = DataFile.tasks ts1)
    (hg : g = DataFile.tasks written) : loadTasks (DataFile.tasks written) = .ok written := by
  apply loadTasks_tasks
  rcases hsnd with h | ⟨ts1, h1, h2⟩
  · rw [h] at hg
    rw [hg] at hload
    by_cases hw : written.all Task.marshals = true
    · exact hw
    · simp only [loadTasks] at hload
      rw [if_neg hw] at hload
      cases hload
  · rw [h2] at hg
    injection hg with hg
    subst hg
    exact h1

theorem map_ID_replace (pre post : List Task) (stored x : Task) (hid : x.ID = stored.ID) :
    (pre ++ x :: post).map (fun t => t.ID) = (pre ++ stored :: post).map (fun t => t.ID) := by
  simp only [List.map_append, List.map_cons, hid]

theorem UpdateTask_preserves_ids (f : DataFile) (ts : List Task) (now : Time) (id : GoInt)
    (title description : String) (hload : loadTasks f = .ok ts)
    (hinv : IDsPositiveDistinct ts) :
    ∃ ts1, loadTasks (UpdateTask now id title description f).2 = .ok ts1 ∧
      IDsPositiveDistinct ts1 ∧ ts1.map (fun t => t.ID) = ts.map (fun t => t.ID) := by
  rcases UpdateTask_cases f ts now id title description hload with
    ⟨_, hres⟩ | ⟨stored, pre, post, hsplit, _, _, hres⟩
  · rw [hres]
    exact ⟨ts, hload, hinv, rfl⟩
  · rw [hres]
    have hmap := map_ID_replace pre post stored (stored.Update now title description)
      (Task.Update_ID stored now title description)
    rw [← hsplit] at hmap
    exact ⟨_, loadTasks_after f _ _ _ hload (UpdateTask_snd now id title description f) (by rw [hres]), IDsPositiveDistinct_of_map_eq ts _ hmap hinv, hmap⟩

theorem UpdateTaskStatus_preserves_ids (f : DataFile) (ts : List Task) (now : Time)
    (id : GoInt) (status : TaskStatus) (hload : loadTasks f = .ok ts)
    (hinv : IDsPositiveDistinct ts) :
    ∃ ts1, loadTasks (UpdateTaskStatus now id status f).2 = .ok ts1 ∧
      IDsPositiveDistinct ts1 ∧ ts1.map (fun t => t.ID) = ts.map (fun t => t.ID) := by
  rcases UpdateTaskStatus_cases f ts now id status hload with
    ⟨_, hres⟩ | ⟨stored, pre, post, hsplit, _, _, hres⟩
  · rw [hres]
    exact ⟨ts, hload, hinv, rfl⟩
  · rw [hres]
    have hmap := map_ID_replace pre post stored (stored.UpdateStatus now status) rfl
    rw [← hsplit] at hmap
    exact ⟨_, loadTasks_after f _ _ _ hload (UpdateTaskStatus_snd now id status f) (by rw [hres]), IDsPositiveDistinct_of_map_eq ts _ hmap hinv, hmap⟩

theorem DeleteTask_preserves_ids (f : DataFile) (ts : List Task) (id : GoInt)
    (hload : loadTasks f = .ok ts) (hinv : IDsPositiveDistinct ts) :
    ∃ ts1, loadTasks (DeleteTask id f).2 = .ok ts1 ∧ IDsPositiveDistinct ts1 := by
  rcases DeleteTask_cases f ts id hload with ⟨_, hres⟩ | ⟨stored, pre, post, hsplit, _, _, hres⟩
  · rw [hres]
    exact ⟨ts, hload, hinv⟩
  · rw [hres]
    refine ⟨_, loadTasks_after f _ _ _ hload (DeleteTask_snd id f) (by rw [hres]), IDsPositiveDistinct_sublist ts _ ?_ hinv⟩
    rw [hsplit]
    exact List.Sublist.append (List.Sublist.refl pre) (List.sublist_cons_self stored post)

theorem CreateTask_preserves_ids (f : DataFile) (ts : List Task) (now : Time)
    (title description : String) (hload : loadTasks f = .ok ts)
    (hinv : IDsPositiveDistinct ts) (hroom : ∀ t ∈ ts, t.ID.val < maxInt) :
    ∃ ts1, loadTasks (CreateTask now title description f).2 = .ok ts1 ∧
      IDsPositiveDistinct ts1 := by
  rcases CreateTask_cases f ts now title description hload with ⟨_, hres⟩ | ⟨_, hres⟩
  · rw [hres]
    exact ⟨ts, hload, hinv⟩
  · rw [hres]
    have habove := nextID_above ts hroom
    exact ⟨_, loadTasks_after f _ _ _ hload (CreateTask_snd now title description f) (by rw [hres]), IDsPositiveDistinct_append ts _ habove.1 habove.2 hinv⟩

theorem Task.Update_Status (t : Task) (now : Time) (title description : String) :
    (t.Update now title description).Status = t.Status := by
  unfold Task.Update
  by_cases h1 : title ≠ "" <;> by_cases h2 : description ≠ "" <;> simp [h1, h2]

theorem StatusesValid_replace (pre post : List Task) (stored x : Task)
    (hx : IsValidStatus x.Status = true) (h : StatusesValid (pre ++ stored :: post)) :
    StatusesValid (pre ++ x :: post) := by
  intro t ht
  rcases List.mem_append.mp ht with h1 | h1
  · exact h t (List.mem_append_left _ h1)
  · rcases List.mem_cons.mp h1 with rfl | h2
    · exact hx
    · exact h t (List.mem_append_right _ (List.mem_cons_of_mem _ h2))

theorem UpdateTask_preserves_statuses (f : DataFile) (ts : List Task) (now : Time)
    (id : GoInt) (title description : String) (hload : loadTasks f = .ok ts)
    (hvalid : StatusesValid ts) :
    ∃ ts1, loadTasks (UpdateTask now id title description f).2 = .ok ts1 ∧
      StatusesValid ts1 := by
  rcases UpdateTask_cases f ts now id title description hload with
    ⟨_, hres⟩ | ⟨stored, pre, post, hsplit, _, _, hres⟩
  · rw [hres]
    exact ⟨ts, hload, hvalid⟩
  · rw [hres]
    subst hsplit
    refine ⟨_, loadTasks_after f _ _ _ hload (UpdateTask_snd now id title description f) (by rw [hres]), StatusesValid_replace pre post stored _ ?_ hvalid⟩
    rw [Task.Update_Status]
    exact hvalid stored (List.mem_append_right _ (List.mem_cons_self _ _))

theorem UpdateTaskStatus_preserves_statuses (f : DataFile) (ts : List Task) (now : Time)
    (id : GoInt) (status : TaskStatus) (hstatus : IsValidStatus status = true)
    (hload : loadTasks f = .ok ts) (hvalid : StatusesValid ts) :
    ∃ ts1, loadTasks (UpdateTaskStatus now id status f).2 = .ok ts1 ∧
      StatusesValid ts1 := by
  rcases UpdateTaskStatus_cases f ts now id status hload with
    ⟨_, hres⟩ | ⟨stored, pre, post, hsplit, _, _, hres⟩
  · rw [hres]
    exact ⟨ts, hload, hvalid⟩
  · rw [hres]
    subst hsplit
    exact ⟨_, loadTasks_after f _ _ _ hload (UpdateTaskStatus_snd now id status f) (by rw [hres]), StatusesValid_replace pre post stored _ hstatus hvalid⟩

theorem DeleteTask_preserves_statuses (f : DataFile) (ts : List Task) (id : GoInt)
    (hload : loadTasks f = .ok ts) (hvalid : StatusesValid ts) :
    ∃ ts1, loadTasks (DeleteTask id f).2 = .ok ts1 ∧ StatusesValid ts1 := by
  rcases DeleteTask_cases f ts id hload with ⟨_, hres⟩ | ⟨stored, pre, post, hsplit, _, _, hres⟩
  · rw [hres]
    exact ⟨ts, hload, hvalid⟩
  · rw [hres]
    subst hsplit
    refine ⟨_, loadTasks_after f _ _ _ hload (DeleteTask_snd id f) (by rw [hres]), ?_⟩
    intro t ht
    rcases List.mem_append.mp ht with h1 | h1
    · exact hvalid t (List.mem_append_left _ h1)
    · exact hvalid t (List.mem_append_right _ (List.mem_cons_of_mem _ h1))

theorem CreateTask_preserves_statuses (f : DataFile) (ts : List Task) (now : Time)
    (title description : String) (hload : loadTasks f = .ok ts)
    (hvalid : StatusesValid ts) :
    ∃ ts1, loadTasks (CreateTask now title description f).2 = .ok ts1 ∧
      StatusesValid ts1 := by
  rcases CreateTask_cases f ts now title description hload with ⟨_, hres⟩ | ⟨_, hres⟩
  · rw [hres]
    exact ⟨ts, hload, hvalid⟩
  · rw [hres]
    refine ⟨_, loadTasks_after f _ _ _ hload (CreateTask_snd now title description f) (by rw [hres]), ?_⟩
    intro t ht
    rcases List.mem_append.mp ht with h1 | h1
    · exact hvalid t h1
    · rw [List.mem_singleton.mp h1]
      show IsValidStatus TaskStatusToDo = true
      decide

theorem TaskCall.applyTo_CreatedAt (c : TaskCall) (t : Task) :
    (c.applyTo t).CreatedAt = t.CreatedAt := by
  cases c with
  | update now title description =>
    show (t.Update now title description).CreatedAt = _
    unfold Task.Update
    by_cases h1 : title ≠ "" <;> by_cases h2 : description ≠ "" <;> simp [h1, h2]
  | updateStatus now status => rfl

theorem TaskCall.applyTo_UpdatedAt (c : TaskCall) (t : Task) :
    (c.applyTo t).UpdatedAt = c.now := by
  cases c with
  | update now title description => rfl
  | updateStatus now status => rfl

theorem applyCalls_CreatedAt (calls : List TaskCall) :
    ∀ t : Task, (applyCalls calls t).CreatedAt = t.CreatedAt := by
  induction calls with
  | nil => intro t; rfl
  | cons c cs ih =>
    intro t
    unfold applyCalls
    rw [ih, TaskCall.applyTo_CreatedAt]

theorem applyCalls_UpdatedAt (calls : List TaskCall) :
    ∀ (t : Task) (now : Time), t.UpdatedAt = now.val →
      (applyCalls calls t).UpdatedAt = (latestReading now calls).val := by
  induction calls with
  | nil => intro t now h; exact h
  | cons c cs ih =>
    intro t now _
    unfold applyCalls latestReading
    exact ih (c.applyTo t) c.now (TaskCall.applyTo_UpdatedAt c t)

theorem latestReading_mem (calls : List TaskCall) :
    ∀ now : Time, latestReading now calls = now ∨ ∃ c ∈ calls, latestReading now calls = c.now := by
  induction calls with
  | nil => intro now; exact Or.inl rfl
  | cons c cs ih =>
    intro now
    unfold latestReading
    rcases ih c.now with h | ⟨d, hd, h⟩
    · exact Or.inr ⟨c, List.mem_cons_self _ _, h⟩
    · exact Or.inr ⟨d, List.mem_cons_of_mem _ hd, h⟩

theorem filter_three_statuses_perm (ts : List Task) (hvalid : StatusesValid ts) :
    (ts.filter (fun t => t.Status = TaskStatusToDo) ++
      ts.filter (fun t => t.Status = TaskStatusInProgress) ++
      ts.filter (fun t => t.Status = TaskStatusDone)).Perm ts := by
  have h12 : TaskStatusToDo ≠ TaskStatusInProgress := by decide
  have h13 : TaskStatusToDo ≠ TaskStatusDone := by decide
  have h23 : TaskStatusInProgress ≠ TaskStatusDone := by decide
  induction ts with
  | nil => exact List.Perm.refl _
  | cons t ts ih =>
    have htail : StatusesValid ts := fun u hu => hvalid u (List.mem_cons_of_mem _ hu)
    have hrec := ih htail
    have ht := hvalid t (List.mem_cons_self _ _)
    have hcases : t.Status = TaskStatusToDo ∨ t.Status = TaskStatusInProgress ∨
        t.Status = TaskStatusDone := by
      unfold IsValidStatus at ht
      by_contra hcon
      rw [if_neg hcon] at ht
      exact Bool.false_ne_true ht
    rcases hcases with h | h | h
    · have e1 : (t :: ts).filter (fun t => t.Status = TaskStatusToDo)
          = t :: ts.filter (fun t => t.Status = TaskStatusToDo) := by
        simp [List.filter, h]
      have e2 : (t :: ts).filter (fun t => t.Status = TaskStatusInProgress)
          = ts.filter (fun t => t.Status = TaskStatusInProgress) := by
        simp [List.filter, h, h12]
      have e3 : (t :: ts).filter (fun t => t.Status = TaskStatusDone)
          = ts.filter (fun t => t.Status = TaskStatusDone) := by
        simp [List.filter, h, h13]
      rw [e1, e2, e3]
      exact List.Perm.cons t hrec
    · have e1 : (t :: ts).filter (fun t => t.Status = TaskStatusToDo)
          = ts.filter (fun t => t.Status = TaskStatusToDo) := by
        simp [List.filter, h, h12.symm]
      have e2 : (t :: ts).filter (fun t => t.Status = TaskStatusInProgress)
          = t :: ts.filter (fun t => t.Status = TaskStatusInProgress) := by
        simp [List.filter, h]
      have e3 : (t :: ts).filter (fun t => t.Status = TaskStatusDone)
          = ts.filter (fun t => t.Status = TaskStatusDone) := by
        simp [List.filter, h, h23]
      rw [e1, e2, e3, List.append_assoc, List.cons_append]
      refine List.Perm.trans List.perm_middle (List.Perm.cons t ?_)
      rw [← List.append_assoc]
      exact hrec
    · have e1 : (t :: ts).filter (fun t => t.Status = TaskStatusToDo)
          = ts.filter (fun t => t.Status = TaskStatusToDo) := by
        simp [List.filter, h, h13.symm]
      have e2 : (t :: ts).filter (fun t => t.Status = TaskStatusInProgress)
          = ts.filter (fun t => t.Status = TaskStatusInProgress) := by
        simp [List.filter, h, h23.symm]
      have e3 : (t :: ts).filter (fun t => t.Status = TaskStatusDone)
          = t :: ts.filter (fun t => t.Status = TaskStatusDone) := by
        simp [List.filter, h]
      rw [e1, e2, e3]
      exact List.Perm.trans List.perm_middle (List.Perm.cons t hrec)

theorem GetAllTasks_of_load (f : DataFile) (ts : List Task) (hload : loadTasks f = .ok ts) :
    GetAllTasks f = (.ok (sortByID ts), f) := by
  unfold GetAllTasks GetAll
  rw [hload]

/-! ## Lemmas about the text of a timestamp -/

/-- C2: createTask with the empty title fails with the empty-title validation
error on every data file, readable or not, and returns the file as it was. -/
theorem C2_createTask_empty_title_rejected (f : DataFile) (now : Time) (description : String) :
    CreateTask now "" description f = (.error .emptyTitle, f) ∧
      (CreateTask now "" description f).2 = f ∧
      loadTasks (CreateTask now "" description f).2 = loadTasks f := by
  have h : CreateTask now "" description f = (.error .emptyTitle, f) := by
    unfold CreateTask
    rw [if_pos rfl]
  rw [h]
  exact ⟨rfl, rfl, rfl⟩

/-- C4, as stated, fails: the use-case operation checks nothing; on the file
holding task 1 it accepts the status "archived" and writes it to the file. -/
theorem C4_usecase_accepts_unknown_status :
    IsValidStatus "archived" = false ∧
      UpdateTaskStatus 9 1 "archived" (DataFile.tasks [sampleTask 1 "a" TaskStatusToDo]) =
        (.ok { sampleTask 1 "a" "archived" with UpdatedAt := 9 },
         DataFile.tasks [{ sampleTask 1 "a" "archived" with UpdatedAt := 9 }]) := by
  decide

/-- C4, amended: the manager operation UpdateTaskStatus, which takes the status
as a string, fails with the invalid-status validation error for every status
other than todo, in-progress and done, on every data file and for every id,
and returns the file as it was. -/
theorem C4_manager_rejects_unknown_status (f : DataFile) (now : Time) (id : GoInt)
    (statusStr : String)
    (hstatus : statusStr ≠ "todo" ∧ statusStr ≠ "in-progress" ∧ statusStr ≠ "done") :
    TaskManager.UpdateTaskStatus now id statusStr f = (.error (.invalidStatus statusStr), f) ∧
      loadTasks (TaskManager.UpdateTaskStatus now id statusStr f).2 = loadTasks f := by
  have hinvalid : IsValidStatus statusStr = false := by
    unfold IsValidStatus TaskStatusToDo TaskStatusInProgress TaskStatusDone
    rw [if_neg]
    rintro (h | h | h)
    · exact hstatus.1 h
    · exact hstatus.2.1 h
    · exact hstatus.2.2 h
  have h : TaskManager.UpdateTaskStatus now id statusStr f
      = (.error (.invalidStatus statusStr), f) := by
    unfold TaskManager.UpdateTaskStatus
    rw [hinvalid]
    rfl
  rw [h]
  exact ⟨rfl, rfl⟩

/-- Witness of the amended C4 with the status "archived". -/
theorem C4_manager_rejects_unknown_status_witness :
    TaskManager.UpdateTaskStatus 9 1 "archived"
        (DataFile.tasks [sampleTask 1 "a" TaskStatusToDo])
        = (.error (.invalidStatus "archived"),
           DataFile.tasks [sampleTask 1 "a" TaskStatusToDo]) ∧
      loadTasks (TaskManager.UpdateTaskStatus 9 1 "archived"
        (DataFile.tasks [sampleTask 1 "a" TaskStatusToDo])).2
        = loadTasks (DataFile.tasks [sampleTask 1 "a" TaskStatusToDo]) :=
  C4_manager_rejects_unknown_status _ 9 1 "archived" (by decide)

/-- C7: on a store that loads, getPendingTasks returns the list of
getByStatus(todo) followed by the list of getByStatus(in-progress); each part
holds exactly the stored tasks of its status, in ascending ID order; a todo
task comes before an in-progress task whatever their IDs, so a store of a todo
task A and an in-progress task B gives [A, B] in either file order. -/
theorem C7_getPendingTasks_concatenates (f : DataFile) (ts : List Task)
    (hload : loadTasks f = .ok ts) :
    ∃ (todoTasks inProgressTasks : List Task),
      GetByStatus TaskStatusToDo f = (.ok todoTasks, f) ∧
      GetByStatus TaskStatusInProgress f = (.ok inProgressTasks, f) ∧
      GetPendingTasks f = (.ok (todoTasks ++ inProgressTasks), f) ∧
      todoTasks.Perm (ts.filter (fun t => t.Status = TaskStatusToDo)) ∧
      inProgressTasks.Perm (ts.filter (fun t => t.Status = TaskStatusInProgress)) ∧
      todoTasks.Pairwise (fun a b => a.ID.val ≤ b.ID.val) ∧
      inProgressTasks.Pairwise (fun a b => a.ID.val ≤ b.ID.val) ∧
      (∀ a ∈ ts, ∀ b ∈ ts, a.Status = TaskStatusToDo → b.Status = TaskStatusInProgress →
        List.Sublist [a, b] (todoTasks ++ inProgressTasks)) ∧
      (∀ a b : Task, ts = [a, b] ∨ ts = [b, a] → a.Status = TaskStatusToDo →
        b.Status = TaskStatusInProgress → todoTasks ++ inProgressTasks = [a, b]) := by
  have hne : TaskStatusInProgress ≠ TaskStatusToDo := by decide
  refine ⟨_, _, GetByStatus_of_load _ f ts hload, GetByStatus_of_load _ f ts hload,
    GetPendingTasks_of_load f ts hload, sortByID_perm _, sortByID_perm _, sortByID_sorted _,
    sortByID_sorted _, ?_, ?_⟩
  · intro a ha b hb hsa hsb
    have h1 : a ∈ sortByID (ts.filter (fun t => t.Status = TaskStatusToDo)) := by
      rw [(sortByID_perm _).mem_iff, List.mem_filter]
      exact ⟨ha, by simpa using hsa⟩
    have h2 : b ∈ sortByID (ts.filter (fun t => t.Status = TaskStatusInProgress)) := by
      rw [(sortByID_perm _).mem_iff, List.mem_filter]
      exact ⟨hb, by simpa using hsb⟩
    exact List.Sublist.append (List.singleton_sublist.mpr h1) (List.singleton_sublist.mpr h2)
  · intro a b hts hsa hsb
    have hsa2 : ¬ a.Status = TaskStatusInProgress := by rw [hsa]; exact fun h => hne h.symm
    have hsb2 : ¬ b.Status = TaskStatusToDo := by rw [hsb]; exact hne
    rcases hts with rfl | rfl
    · simp [List.filter, hsa, hsb, hsa2, hsb2, sortByID]
    · simp [List.filter, hsa, hsb, hsa2, hsb2, sortByID]

/-- Witness of C7: the in-progress task has ID 1, the todo task ID 2, and the
todo task is still listed first. -/
theorem C7_getPendingTasks_concatenates_witness :
    GetPendingTasks (DataFile.tasks
        [sampleTask 1 "B" TaskStatusInProgress, sampleTask 2 "A" TaskStatusToDo])
      = (.ok [sampleTask 2 "A" TaskStatusToDo, sampleTask 1 "B" TaskStatusInProgress],
         DataFile.tasks
          [sampleTask 1 "B" TaskStatusInProgress, sampleTask 2 "A" TaskStatusToDo]) ∧
    ∃ (todoTasks inProgressTasks : List Task),
      GetByStatus TaskStatusToDo (DataFile.tasks
        [sampleTask 1 "B" TaskStatusInProgress, sampleTask 2 "A" TaskStatusToDo])
        = (.ok todoTasks, DataFile.tasks
          [sampleTask 1 "B" TaskStatusInProgress, sampleTask 2 "A" TaskStatusToDo]) ∧
      GetByStatus TaskStatusInProgress (DataFile.tasks
        [sampleTask 1 "B" TaskStatusInProgress, sampleTask 2 "A" TaskStatusToDo])
        = (.ok inProgressTasks, DataFile.tasks
          [sampleTask 1 "B" TaskStatusInProgress, sampleTask 2 "A" TaskStatusToDo]) ∧
      GetPendingTasks (DataFile.tasks
        [sampleTask 1 "B" TaskStatusInProgress, sampleTask 2 "A" TaskStatusToDo])
        = (.ok (todoTasks ++ inProgressTasks), DataFile.tasks
          [sampleTask 1 "B" TaskStatusInProgress, sampleTask 2 "A" TaskStatusToDo]) ∧
      todoTasks.Perm ([sampleTask 1 "B" TaskStatusInProgress,
        sampleTask 2 "A" TaskStatusToDo].filter (fun t => t.Status = TaskStatusToDo)) ∧
      inProgressTasks.Perm ([sampleTask 1 "B" TaskStatusInProgress,
        sampleTask 2 "A" TaskStatusToDo].filter (fun t => t.Status = TaskStatusInProgress)) ∧
      todoTasks.Pairwise (fun a b => a.ID.val ≤ b.ID.val) ∧
      inProgressTasks.Pairwise (fun a b => a.ID.val ≤ b.ID.val) ∧
      (∀ a ∈ [sampleTask 1 "B" TaskStatusInProgress, sampleTask 2 "A" TaskStatusToDo],
        ∀ b ∈ [sampleTask 1 "B" TaskStatusInProgress, sampleTask 2 "A" TaskStatusToDo],
        a.Status = TaskStatusToDo → b.Status = TaskStatusInProgress →
        List.Sublist [a, b] (todoTasks ++ inProgressTasks)) ∧
      (∀ a b : Task,
        [sampleTask 1 "B" TaskStatusInProgress, sampleTask 2 "A" TaskStatusToDo] = [a, b] ∨
        [sampleTask 1 "B" TaskStatusInProgress, sampleTask 2 "A" TaskStatusToDo] = [b, a] →
        a.Status = TaskStatusToDo → b.Status = TaskStatusInProgress →
        todoTasks ++ inProgressTasks = [a, b]) :=
  ⟨by decide, C7_getPendingTasks_concatenates _ _ rfl⟩

/-- C8: on a store that loads, getAll succeeds, leaves the file alone and
returns a permutation of the stored collection, of the same length, in
ascending order of ID. -/
theorem C8_getAll_sorted_permutation (f : DataFile) (ts : List Task)
    (hload : loadTasks f = .ok ts) :
    ∃ result : List Task,
      GetAll f = (.ok result, f) ∧ result.Perm ts ∧ result.length = ts.length ∧
      (∀ t : Task, result.count t = ts.count t) ∧
      result.Pairwise (fun a b => a.ID.val ≤ b.ID.val) := by
  refine ⟨sortByID ts, ?_, sortByID_perm ts, (sortByID_perm ts).length_eq,
    fun t => (sortByID_perm ts).count_eq t, sortByID_sorted ts⟩
  unfold GetAll
  rw [hload]

/-- Witness of C8 on a file that lists task 3 before task 1 and task 2. -/
theorem C8_getAll_sorted_permutation_witness :
    GetAll (DataFile.tasks [sampleTask 3 "c" TaskStatusDone, sampleTask 1 "a" TaskStatusToDo,
        sampleTask 2 "b" TaskStatusToDo])
      = (.ok [sampleTask 1 "a" TaskStatusToDo, sampleTask 2 "b" TaskStatusToDo,
          sampleTask 3 "c" TaskStatusDone],
         DataFile.tasks [sampleTask 3 "c" TaskStatusDone, sampleTask 1 "a" TaskStatusToDo,
          sampleTask 2 "b" TaskStatusToDo]) ∧
    ∃ result : List Task,
      GetAll (DataFile.tasks [sampleTask 3 "c" TaskStatusDone,
        sampleTask 1 "a" TaskStatusToDo, sampleTask 2 "b" TaskStatusToDo])
        = (.ok result, DataFile.tasks [sampleTask 3 "c" TaskStatusDone,
          sampleTask 1 "a" TaskStatusToDo, sampleTask 2 "b" TaskStatusToDo]) ∧
      result.Perm [sampleTask 3 "c" TaskStatusDone, sampleTask 1 "a" TaskStatusToDo,
        sampleTask 2 "b" TaskStatusToDo] ∧
      result.length = [sampleTask 3 "c" TaskStatusDone, sampleTask 1 "a" TaskStatusToDo,
        sampleTask 2 "b" TaskStatusToDo].length ∧
      (∀ t : Task, result.count t = [sampleTask 3 "c" TaskStatusDone,
        sampleTask 1 "a" TaskStatusToDo, sampleTask 2 "b" TaskStatusToDo].count t) ∧
      result.Pairwise (fun a b => a.ID.val ≤ b.ID.val) :=
  ⟨by decide, C8_getAll_sorted_permutation _ _ rfl⟩

/-- C9: on a store that loads, getByStatus(s) succeeds for every status value s,
leaves the file alone and returns, in ascending order of ID, the stored tasks
whose status is exactly s, each as often as it is stored, and no other task;
the result is the empty list when no stored task has status s. -/
theorem C9_getByStatus_filters_and_sorts (f : DataFile) (ts : List Task) (s : TaskStatus)
    (hload : loadTasks f = .ok ts) :
    ∃ result : List Task,
      GetByStatus s f = (.ok result, f) ∧
      result.Pairwise (fun a b => a.ID.val ≤ b.ID.val) ∧
      result.Perm (ts.filter (fun t => t.Status = s)) ∧
      (∀ t : Task, t ∈ result ↔ t ∈ ts ∧ t.Status = s) ∧
      (∀ t : Task, result.count t = if t.Status = s then ts.count t else 0) ∧
      ((∀ t ∈ ts, t.Status ≠ s) → result = []) := by
  have hperm := sortByID_perm (ts.filter (fun t => t.Status = s))
  refine ⟨_, GetByStatus_of_load s f ts hload, sortByID_sorted _, hperm, ?_, ?_, ?_⟩
  · intro t
    rw [hperm.mem_iff, List.mem_filter]
    simp
  · intro t
    rw [hperm.count_eq]
    by_cases hs : t.Status = s
    · rw [if_pos hs]
      exact List.count_filter (by simpa using hs)
    · rw [if_neg hs]
      apply List.count_eq_zero_of_not_mem
      intro hmem
      exact hs (by simpa using (List.mem_filter.mp hmem).2)
  · intro hnone
    have hnil : ts.filter (fun t => t.Status = s) = [] := by
      rw [List.filter_eq_nil_iff]
      intro t ht
      simpa using hnone t ht
    show sortByID (ts.filter (fun t => t.Status = s)) = []
    rw [hnil]
    rfl

/-- Witness of C9: the done tasks of a three-task file, and no error for a
status that no task has. -/
theorem C9_getByStatus_filters_and_sorts_witness :
    GetByStatus TaskStatusInProgress (DataFile.tasks [sampleTask 3 "c" TaskStatusDone,
        sampleTask 2 "b" TaskStatusToDo, sampleTask 1 "a" TaskStatusDone])
      = (.ok [], DataFile.tasks [sampleTask 3 "c" TaskStatusDone,
          sampleTask 2 "b" TaskStatusToDo, sampleTask 1 "a" TaskStatusDone]) ∧
    ∃ result : List Task,
      GetByStatus TaskStatusDone (DataFile.tasks [sampleTask 3 "c" TaskStatusDone,
        sampleTask 2 "b" TaskStatusToDo, sampleTask 1 "a" TaskStatusDone])
        = (.ok result, DataFile.tasks [sampleTask 3 "c" TaskStatusDone,
          sampleTask 2 "b" TaskStatusToDo, sampleTask 1 "a" TaskStatusDone]) ∧
      result.Pairwise (fun a b => a.ID.val ≤ b.ID.val) ∧
      result.Perm ([sampleTask 3 "c" TaskStatusDone, sampleTask 2 "b" TaskStatusToDo,
        sampleTask 1 "a" TaskStatusDone].filter (fun t => t.Status = TaskStatusDone)) ∧
      (∀ t : Task, t ∈ result ↔ t ∈ [sampleTask 3 "c" TaskStatusDone,
        sampleTask 2 "b" TaskStatusToDo, sampleTask 1 "a" TaskStatusDone] ∧
        t.Status = TaskStatusDone) ∧
      (∀ t : Task, result.count t = if t.Status = TaskStatusDone then
        [sampleTask 3 "c" TaskStatusDone, sampleTask 2 "b" TaskStatusToDo,
          sampleTask 1 "a" TaskStatusDone].count t else 0) ∧
      ((∀ t ∈ [sampleTask 3 "c" TaskStatusDone, sampleTask 2 "b" TaskStatusToDo,
        sampleTask 1 "a" TaskStatusDone], t.Status ≠ TaskStatusDone) → result = []) :=
  ⟨by decide, C9_getByStatus_filters_and_sorts _ _ TaskStatusDone rfl⟩

/-! ## Allocating IDs -/

/-- C10, as stated, fails: on a file whose only task has the largest int as its
ID, a positive integer, getNextID returns the smallest int, not the maximum
plus 1. -/
theorem C10_getNextID_wraps_at_largest_int :
    0 < largestIDTask.ID.val ∧
      GetNextID (DataFile.tasks [largestIDTask])
        = (.ok ⟨minInt, by decide⟩, DataFile.tasks [largestIDTask]) ∧
      minInt ≠ largestIDTask.ID.val + 1 := by
  decide

/-- C10, amended: on a store that loads and whose IDs are positive and below the
largest int, getNextID leaves the file alone and returns 1 when the collection
is empty, and otherwise the largest stored ID plus 1. -/
theorem C10_getNextID_max_plus_one (f : DataFile) (ts : List Task)
    (hload : loadTasks f = .ok ts)
    (hids : ∀ t ∈ ts, 0 < t.ID.val ∧ t.ID.val < maxInt) :
    ∃ n : GoInt,
      GetNextID f = (.ok n, f) ∧
      (ts = [] → n.val = 1) ∧
      (ts ≠ [] → ∃ m ∈ ts, (∀ t ∈ ts, t.ID.val ≤ m.ID.val) ∧ n.val = m.ID.val + 1) := by
  refine ⟨_, GetNextID_of_load f ts hload, ?_, ?_⟩
  · intro hnil
    subst hnil
    exact one_val
  · intro hne
    have hlen : ¬ ts.length = 0 := fun h => hne (List.length_eq_zero.mp h)
    rw [if_neg hlen]
    obtain ⟨u, hu⟩ := List.exists_mem_of_ne_nil ts hne
    rcases maxIDLoop_start_or_mem ts 0 with h0 | ⟨m, hm, hmax⟩
    · have h1 := maxIDLoop_ge_mem ts 0 u hu
      rw [h0, zero_val] at h1
      have h2 := (hids u hu).1
      omega
    · refine ⟨m, hm, ?_, ?_⟩
      · intro t ht
        have h1 := maxIDLoop_ge_mem ts 0 t ht
        rwa [hmax] at h1
      · rw [hmax]
        exact intAdd_one_val_of_lt m.ID (hids m hm).2

/-- Witness of the amended C10 on a file holding tasks 2, 7 and 5. -/
theorem C10_getNextID_max_plus_one_witness :
    GetNextID (DataFile.tasks [sampleTask 2 "a" TaskStatusToDo,
        sampleTask 7 "b" TaskStatusDone, sampleTask 5 "c" TaskStatusToDo])
      = (.ok 8, DataFile.tasks [sampleTask 2 "a" TaskStatusToDo,
          sampleTask 7 "b" TaskStatusDone, sampleTask 5 "c" TaskStatusToDo]) ∧
    ∃ n : GoInt,
      GetNextID (DataFile.tasks [sampleTask 2 "a" TaskStatusToDo,
        sampleTask 7 "b" TaskStatusDone, sampleTask 5 "c" TaskStatusToDo])
        = (.ok n, DataFile.tasks [sampleTask 2 "a" TaskStatusToDo,
          sampleTask 7 "b" TaskStatusDone, sampleTask 5 "c" TaskStatusToDo]) ∧
      ([sampleTask 2 "a" TaskStatusToDo, sampleTask 7 "b" TaskStatusDone,
        sampleTask 5 "c" TaskStatusToDo] = [] → n.val = 1) ∧
      ([sampleTask 2 "a" TaskStatusToDo, sampleTask 7 "b" TaskStatusDone,
        sampleTask 5 "c" TaskStatusToDo] ≠ [] →
        ∃ m ∈ [sampleTask 2 "a" TaskStatusToDo, sampleTask 7 "b" TaskStatusDone,
          sampleTask 5 "c" TaskStatusToDo],
          (∀ t ∈ [sampleTask 2 "a" TaskStatusToDo, sampleTask 7 "b" TaskStatusDone,
            sampleTask 5 "c" TaskStatusToDo], t.ID.val ≤ m.ID.val) ∧
          n.val = m.ID.val + 1) :=
  ⟨by decide, C10_getNextID_max_plus_one _ _ rfl (by decide)⟩

/-! ## Sequences of creations -/

/-- C14: on a store whose IDs are pairwise distinct, after deleteTask(id)
succeeded a getTask(id) fails with the not-found error, and for every stored
task with another ID getTask of that ID returns that task before the deletion
and after it. -/
theorem C14_getTask_after_delete (f : DataFile) (ts : List Task) (id : GoInt)
    (hload : loadTasks f = .ok ts) (hdistinct : (ts.map (fun t => t.ID)).Nodup)
    (hdel : (DeleteTask id f).1 = .ok ()) :
    (GetTask id (DeleteTask id f).2).1
        = .error (.context "failed to get task" (.notFound id)) ∧
      (TaskError.context "failed to get task" (.notFound id)).rootCause = .notFound id ∧
      ∀ t ∈ ts, t.ID ≠ id →
        (GetTask t.ID f).1 = .ok t ∧ (GetTask t.ID (DeleteTask id f).2).1 = .ok t := by
  obtain ⟨stored, pre, post, hsplit, hpre, hid, hres⟩ := DeleteTask_ok_split id f ts hload hdel
  rw [hres]
  subst hsplit
  have hpost := nodup_split_post pre post stored hdistinct
  have hnd1 := nodup_remove pre post stored hdistinct
  have hafter : loadTasks (DataFile.tasks (pre ++ post)) = .ok (pre ++ post) :=
    loadTasks_after f _ _ _ hload (DeleteTask_snd id f) (by rw [hres])
  refine ⟨?_, rfl, ?_⟩
  · have hnone : ∀ u ∈ pre ++ post, u.ID ≠ id := by
      intro u hu
      rcases List.mem_append.mp hu with h | h
      · exact hpre u h
      · rw [← hid]
        exact hpost u h
    rw [GetTask_not_found id (DataFile.tasks (pre ++ post)) (pre ++ post) hafter hnone]
  · intro t ht hne
    constructor
    · rw [GetTask_of_find t.ID f _ t hload (findByID_of_nodup _ hdistinct t ht)]
    · have hmem : t ∈ pre ++ post := by
        rcases List.mem_append.mp ht with h | h
        · exact List.mem_append_left _ h
        · rcases List.mem_cons.mp h with rfl | h2
          · exact absurd hid hne
          · exact List.mem_append_right _ h2
      rw [GetTask_of_find t.ID (DataFile.tasks (pre ++ post)) (pre ++ post) t hafter
        (findByID_of_nodup _ hnd1 t hmem)]

/-- Witness of C14 on a three-task file from which task 2 is deleted. -/
theorem C14_getTask_after_delete_witness :
    (GetTask 2 (DeleteTask 2 (DataFile.tasks [sampleTask 3 "c" TaskStatusToDo,
        sampleTask 2 "b" TaskStatusToDo, sampleTask 1 "a" TaskStatusToDo])).2).1
        = .error (.context "failed to get task" (.notFound 2)) ∧
      (TaskError.context "failed to get task" (.notFound 2)).rootCause = .notFound 2 ∧
      ∀ t ∈ [sampleTask 3 "c" TaskStatusToDo, sampleTask 2 "b" TaskStatusToDo,
          sampleTask 1 "a" TaskStatusToDo], t.ID ≠ 2 →
        (GetTask t.ID (DataFile.tasks [sampleTask 3 "c" TaskStatusToDo,
          sampleTask 2 "b" TaskStatusToDo, sampleTask 1 "a" TaskStatusToDo])).1 = .ok t ∧
        (GetTask t.ID (DeleteTask 2 (DataFile.tasks [sampleTask 3 "c" TaskStatusToDo,
          sampleTask 2 "b" TaskStatusToDo, sampleTask 1 "a" TaskStatusToDo])).2).1 = .ok t :=
  C14_getTask_after_delete _ _ 2 rfl (by decide) (by decide)

/-- C15: on a store whose IDs are pairwise distinct and which holds a task with
the given id, updateTaskStatus(id, done) succeeds, and afterwards
getTasksByStatus(done) lists the returned task, which has that id, while
getTasksByStatus(todo) lists no task with that id. -/
theorem C15_done_task_moves_between_lists (f : DataFile) (ts : List Task) (now : Time)
    (id : GoInt) (hload : loadTasks f = .ok ts)
    (hdistinct : (ts.map (fun t => t.ID)).Nodup) (hmem : ∃ t ∈ ts, t.ID = id) :
    ∃ (updated : Task) (doneTasks todoTasks : List Task),
      (UpdateTaskStatus now id TaskStatusDone f).1 = .ok updated ∧ updated.ID = id ∧
      (GetTasksByStatus TaskStatusDone (UpdateTaskStatus now id TaskStatusDone f).2).1
        = .ok doneTasks ∧
      updated ∈ doneTasks ∧ (∃ t ∈ doneTasks, t.ID = id) ∧
      (GetTasksByStatus TaskStatusToDo (UpdateTaskStatus now id TaskStatusDone f).2).1
        = .ok todoTasks ∧
      (∀ t ∈ todoTasks, t.ID ≠ id) := by
  rcases UpdateTaskStatus_cases f ts now id TaskStatusDone hload with ⟨hnone, _⟩ | hfound
  · obtain ⟨t, ht, hid⟩ := hmem
    exact absurd hid (hnone t ht)
  · obtain ⟨stored, pre, post, hsplit, hpre, hid, hres⟩ := hfound
    subst hsplit
    have hpost := nodup_split_post pre post stored hdistinct
    have hafter : loadTasks (DataFile.tasks (pre ++ stored.UpdateStatus now TaskStatusDone :: post))
        = .ok (pre ++ stored.UpdateStatus now TaskStatusDone :: post) :=
      loadTasks_after f _ _ _ hload (UpdateTaskStatus_snd now id TaskStatusDone f) (by rw [hres])
    have hin : stored.UpdateStatus now TaskStatusDone ∈
        sortByID ((pre ++ stored.UpdateStatus now TaskStatusDone :: post).filter
          (fun t => t.Status = TaskStatusDone)) := by
      rw [(sortByID_perm _).mem_iff, List.mem_filter]
      refine ⟨List.mem_append_right _ (List.mem_cons_self _ _), ?_⟩
      simp [Task.UpdateStatus]
    refine ⟨stored.UpdateStatus now TaskStatusDone,
      sortByID ((pre ++ stored.UpdateStatus now TaskStatusDone :: post).filter
        (fun t => t.Status = TaskStatusDone)),
      sortByID ((pre ++ stored.UpdateStatus now TaskStatusDone :: post).filter
        (fun t => t.Status = TaskStatusToDo)),
      by rw [hres], hid, ?_, hin, ⟨_, hin, hid⟩, ?_, ?_⟩
    · rw [hres, GetTasksByStatus_of_load TaskStatusDone (DataFile.tasks _) _ hafter]
    · rw [hres, GetTasksByStatus_of_load TaskStatusToDo (DataFile.tasks _) _ hafter]
    · intro t ht heq
      rw [(sortByID_perm _).mem_iff, List.mem_filter] at ht
      obtain ⟨hmem1, hstatus⟩ := ht
      have hstatus1 : t.Status = TaskStatusToDo := by simpa using hstatus
      rcases List.mem_append.mp hmem1 with h | h
      · exact hpre t h heq
      · rcases List.mem_cons.mp h with rfl | h2
        · have hne : TaskStatusDone ≠ TaskStatusToDo := by decide
          exact hne hstatus1
        · exact hpost t h2 (by rw [heq, hid])

/-- Witness of C15: task 2 of a three-task file is marked done. -/
theorem C15_done_task_moves_between_lists_witness :
    ∃ (updated : Task) (doneTasks todoTasks : List Task),
      (UpdateTaskStatus 6 2 TaskStatusDone (DataFile.tasks [sampleTask 3 "c" TaskStatusToDo,
        sampleTask 2 "b" TaskStatusToDo, sampleTask 1 "a" TaskStatusDone])).1 = .ok updated ∧
      updated.ID = 2 ∧
      (GetTasksByStatus TaskStatusDone (UpdateTaskStatus 6 2 TaskStatusDone (DataFile.tasks
        [sampleTask 3 "c" TaskStatusToDo, sampleTask 2 "b" TaskStatusToDo,
          sampleTask 1 "a" TaskStatusDone])).2).1 = .ok doneTasks ∧
      updated ∈ doneTasks ∧ (∃ t ∈ doneTasks, t.ID = 2) ∧
      (GetTasksByStatus TaskStatusToDo (UpdateTaskStatus 6 2 TaskStatusDone (DataFile.tasks
        [sampleTask 3 "c" TaskStatusToDo, sampleTask 2 "b" TaskStatusToDo,
          sampleTask 1 "a" TaskStatusDone])).2).1 = .ok todoTasks ∧
      (∀ t ∈ todoTasks, t.ID ≠ 2) :=
  C15_done_task_moves_between_lists _ _ 6 2 rfl (by decide)
    ⟨sampleTask 2 "b" TaskStatusToDo, by decide, by decide⟩

/-! ## Invariants of the stored collection -/

/-- C16, as stated, fails: the file whose only task has the largest int as its ID
has positive, distinct IDs, and after createTask it holds a second task whose
ID is the smallest int, which is negative. -/
theorem C16_createTask_breaks_positive_ids :
    IDsPositiveDistinct [largestIDTask] ∧
      loadTasks ((UseCaseCall.createTask 1 "x" "").fileAfter (DataFile.tasks [largestIDTask]))
        = .ok [largestIDTask, NewTask 1 ⟨minInt, by decide⟩ "x" ""] ∧
      ¬ IDsPositiveDistinct [largestIDTask, NewTask 1 ⟨minInt, by decide⟩ "x" ""] := by
  decide

/-- C16, amended: on a store that loads and whose IDs are positive and pairwise
distinct, the collection stored after any use-case call, succeeded or failed,
has positive and pairwise distinct IDs again, provided that for a createTask
call every stored ID is below the largest int; after a call that is neither
createTask nor deleteTask the stored IDs are the same, in the same order, so
an update never changes an ID. -/
theorem C16_ids_stay_positive_distinct (c : UseCaseCall) (f : DataFile) (ts : List Task)
    (hload : loadTasks f = .ok ts) (hinv : IDsPositiveDistinct ts)
    (hroom : (∃ now title description, c = UseCaseCall.createTask now title description) →
      ∀ t ∈ ts, t.ID.val < maxInt) :
    ∃ ts1 : List Task,
      loadTasks (c.fileAfter f) = .ok ts1 ∧ IDsPositiveDistinct ts1 ∧
      ((∀ now title description, c ≠ UseCaseCall.createTask now title description) →
        (∀ id, c ≠ UseCaseCall.deleteTask id) →
        ts1.map (fun t => t.ID) = ts.map (fun t => t.ID)) := by
  cases c with
  | createTask now title description =>
    obtain ⟨ts1, h1, h2⟩ := CreateTask_preserves_ids f ts now title description hload hinv
      (hroom ⟨now, title, description, rfl⟩)
    exact ⟨ts1, h1, h2, fun h _ => absurd rfl (h now title description)⟩
  | getTask id =>
    exact ⟨ts, by show loadTasks (GetTask id f).2 = _; rw [GetTask_snd, hload], hinv,
      fun _ _ => rfl⟩
  | getAllTasks =>
    exact ⟨ts, by show loadTasks (GetAllTasks f).2 = _; rw [GetAllTasks_snd, hload], hinv,
      fun _ _ => rfl⟩
  | getTasksByStatus status =>
    exact ⟨ts, by
      show loadTasks (GetTasksByStatus status f).2 = _
      rw [GetTasksByStatus_snd, hload], hinv, fun _ _ => rfl⟩
  | getPendingTasks =>
    exact ⟨ts, by show loadTasks (GetPendingTasks f).2 = _; rw [GetPendingTasks_snd, hload],
      hinv, fun _ _ => rfl⟩
  | updateTask now id title description =>
    obtain ⟨ts1, h1, h2, h3⟩ := UpdateTask_preserves_ids f ts now id title description hload hinv
    exact ⟨ts1, h1, h2, fun _ _ => h3⟩
  | updateTaskStatus now id status =>
    obtain ⟨ts1, h1, h2, h3⟩ := UpdateTaskStatus_preserves_ids f ts now id status hload hinv
    exact ⟨ts1, h1, h2, fun _ _ => h3⟩
  | deleteTask id =>
    obtain ⟨ts1, h1, h2⟩ := DeleteTask_preserves_ids f ts id hload hinv
    exact ⟨ts1, h1, h2, fun _ h => absurd rfl (h id)⟩
  | markTaskDone now id =>
    obtain ⟨ts1, h1, h2, h3⟩ :=
      UpdateTaskStatus_preserves_ids f ts now id TaskStatusDone hload hinv
    exact ⟨ts1, h1, h2, fun _ _ => h3⟩
  | markTaskInProgress now id =>
    obtain ⟨ts1, h1, h2, h3⟩ :=
      UpdateTaskStatus_preserves_ids f ts now id TaskStatusInProgress hload hinv
    exact ⟨ts1, h1, h2, fun _ _ => h3⟩
  | markTaskToDo now id =>
    obtain ⟨ts1, h1, h2, h3⟩ :=
      UpdateTaskStatus_preserves_ids f ts now id TaskStatusToDo hload hinv
    exact ⟨ts1, h1, h2, fun _ _ => h3⟩

/-- Witness of the amended C16: a createTask on a file holding tasks 1 and 2. -/
theorem C16_ids_stay_positive_distinct_witness :
    ∃ ts1 : List Task,
      loadTasks ((UseCaseCall.createTask 4 "c" "").fileAfter (DataFile.tasks
        [sampleTask 1 "a" TaskStatusToDo, sampleTask 2 "b" TaskStatusDone])) = .ok ts1 ∧
      IDsPositiveDistinct ts1 ∧
      ((∀ now title description,
          UseCaseCall.createTask 4 "c" "" ≠ UseCaseCall.createTask now title description) →
        (∀ id, UseCaseCall.createTask 4 "c" "" ≠ UseCaseCall.deleteTask id) →
        ts1.map (fun t => t.ID) = [sampleTask 1 "a" TaskStatusToDo,
          sampleTask 2 "b" TaskStatusDone].map (fun t => t.ID)) :=
  C16_ids_stay_positive_distinct (UseCaseCall.createTask 4 "c" "")
    (DataFile.tasks [sampleTask 1 "a" TaskStatusToDo, sampleTask 2 "b" TaskStatusDone])
    [sampleTask 1 "a" TaskStatusToDo, sampleTask 2 "b" TaskStatusDone] rfl (by decide)
    (fun _ => by decide)

/-- C17: on a store that loads and in which every task has the status todo,
in-progress or done, the collection stored after any call of a TaskManager
method, with any arguments and any status string, again holds only tasks with
one of these three statuses. -/
theorem C17_manager_keeps_statuses_valid (c : ManagerCall) (f : DataFile) (ts : List Task)
    (hload : loadTasks f = .ok ts) (hvalid : StatusesValid ts) :
    ∃ ts1 : List Task,
      loadTasks (c.fileAfter f) = .ok ts1 ∧ StatusesValid ts1 ∧
      (∀ t ∈ ts1, t.Status = TaskStatusToDo ∨ t.Status = TaskStatusInProgress ∨
        t.Status = TaskStatusDone) := by
  have hthree : ∀ ts1 : List Task, StatusesValid ts1 →
      ∀ t ∈ ts1, t.Status = TaskStatusToDo ∨ t.Status = TaskStatusInProgress ∨
        t.Status = TaskStatusDone := by
    intro ts1 h t ht
    have h1 := h t ht
    unfold IsValidStatus at h1
    by_contra hcon
    rw [if_neg hcon] at h1
    exact Bool.false_ne_true h1
  have hfinish : ∀ g : DataFile, (∃ ts1, loadTasks g = .ok ts1 ∧ StatusesValid ts1) →
      ∃ ts1 : List Task, loadTasks g = .ok ts1 ∧ StatusesValid ts1 ∧
        (∀ t ∈ ts1, t.Status = TaskStatusToDo ∨ t.Status = TaskStatusInProgress ∨
          t.Status = TaskStatusDone) := by
    rintro g ⟨ts1, h1, h2⟩
    exact ⟨ts1, h1, h2, hthree ts1 h2⟩
  apply hfinish
  cases c with
  | addTask now title description =>
    exact CreateTask_preserves_statuses f ts now title description hload hvalid
  | updateTask now id title description =>
    exact UpdateTask_preserves_statuses f ts now id title description hload hvalid
  | deleteTask id => exact DeleteTask_preserves_statuses f ts id hload hvalid
  | getTask id =>
    exact ⟨ts, by show loadTasks (GetTask id f).2 = _; rw [GetTask_snd, hload], hvalid⟩
  | listAllTasks =>
    exact ⟨ts, by show loadTasks (GetAllTasks f).2 = _; rw [GetAllTasks_snd, hload], hvalid⟩
  | listDoneTasks =>
    exact ⟨ts, by
      show loadTasks (GetTasksByStatus TaskStatusDone f).2 = _
      rw [GetTasksByStatus_snd, hload], hvalid⟩
  | listTodoTasks =>
    exact ⟨ts, by
      show loadTasks (GetTasksByStatus TaskStatusToDo f).2 = _
      rw [GetTasksByStatus_snd, hload], hvalid⟩
  | listInProgressTasks =>
    exact ⟨ts, by
      show loadTasks (GetTasksByStatus TaskStatusInProgress f).2 = _
      rw [GetTasksByStatus_snd, hload], hvalid⟩
  | listPendingTasks =>
    exact ⟨ts, by show loadTasks (GetPendingTasks f).2 = _; rw [GetPendingTasks_snd, hload],
      hvalid⟩
  | markDone now id =>
    exact UpdateTaskStatus_preserves_statuses f ts now id TaskStatusDone (by decide)
      hload hvalid
  | markInProgress now id =>
    exact UpdateTaskStatus_preserves_statuses f ts now id TaskStatusInProgress (by decide)
      hload hvalid
  | markTodo now id =>
    exact UpdateTaskStatus_preserves_statuses f ts now id TaskStatusToDo (by decide)
      hload hvalid
  | updateTaskStatus now id statusStr =>
    show ∃ ts1, loadTasks (TaskManager.UpdateTaskStatus now id statusStr f).2 = .ok ts1 ∧
      StatusesValid ts1
    unfold TaskManager.UpdateTaskStatus
    by_cases hs : IsValidStatus statusStr = true
    · rw [if_neg (by simpa using hs)]
      exact UpdateTaskStatus_preserves_statuses f ts now id statusStr hs hload hvalid
    · rw [if_pos (by simpa using hs)]
      exact ⟨ts, hload, hvalid⟩

/-- Witness of C17: the manager is asked to set the status "archived". -/
theorem C17_manager_keeps_statuses_valid_witness :
    ∃ ts1 : List Task,
      loadTasks ((ManagerCall.updateTaskStatus 4 1 "archived").fileAfter (DataFile.tasks
        [sampleTask 1 "a" TaskStatusToDo, sampleTask 2 "b" TaskStatusDone])) = .ok ts1 ∧
      StatusesValid ts1 ∧
      (∀ t ∈ ts1, t.Status = TaskStatusToDo ∨ t.Status = TaskStatusInProgress ∨
        t.Status = TaskStatusDone) :=
  C17_manager_keeps_statuses_valid (ManagerCall.updateTaskStatus 4 1 "archived")
    (DataFile.tasks [sampleTask 1 "a" TaskStatusToDo, sampleTask 2 "b" TaskStatusDone])
    [sampleTask 1 "a" TaskStatusToDo, sampleTask 2 "b" TaskStatusDone] rfl (by decide)

/-! ## Absent, empty and unreadable files -/

/-- C18: on an absent file and on a file of zero bytes alike, getAllTasks succeeds
with the empty list, getNextID returns 1 and getTask of any id fails with the
not-found error; each of the four repository read operations gives the same
result on the two files. -/
theorem C18_absent_and_empty_file_alike (id : GoInt) (status : TaskStatus) :
    GetAllTasks DataFile.missing = (.ok [], DataFile.missing) ∧
      GetAllTasks DataFile.empty = (.ok [], DataFile.empty) ∧
      GetNextID DataFile.missing = (.ok 1, DataFile.missing) ∧
      GetNextID DataFile.empty = (.ok 1, DataFile.empty) ∧
      GetTask id DataFile.missing
        = (.error (.context "failed to get task" (.notFound id)), DataFile.missing) ∧
      GetTask id DataFile.empty
        = (.error (.context "failed to get task" (.notFound id)), DataFile.empty) ∧
      (GetByID id DataFile.missing).1 = (GetByID id DataFile.empty).1 ∧
      (GetAll DataFile.missing).1 = (GetAll DataFile.empty).1 ∧
      (GetByStatus status DataFile.missing).1 = (GetByStatus status DataFile.empty).1 ∧
      (GetNextID DataFile.missing).1 = (GetNextID DataFile.empty).1 :=
  ⟨rfl, rfl, rfl, rfl, rfl, rfl, rfl, rfl, rfl, rfl⟩

/-- C19, as stated, fails: a file that holds the JSON literal null is not empty
and is not a JSON array of task records, yet it loads as the empty collection:
getAll returns the empty list, getNextID returns 1, and create writes the
file. -/
theorem C19_json_null_read_as_empty :
    DataFile.jsonNull.hasContents = true ∧ DataFile.jsonNull.isTaskArray = false ∧
      GetAll DataFile.jsonNull = (.ok [], DataFile.jsonNull) ∧
      GetNextID DataFile.jsonNull = (.ok 1, DataFile.jsonNull) ∧
      Create (sampleTask 1 "a" TaskStatusToDo) DataFile.jsonNull
        = (.ok (), DataFile.tasks [sampleTask 1 "a" TaskStatusToDo]) := by
  decide

/-- C19, amended: on a file whose contents json.Unmarshal rejects, each of the
seven repository operations create, getByID, getAll, getByStatus, update,
delete and getNextID fails, with any arguments, with the unmarshal error and
returns the file as it was. -/
theorem C19_rejected_contents_fail_every_operation (raw : String) (task : Task) (id : GoInt)
    (status : TaskStatus) :
    Create task (DataFile.malformed raw) = (.error .unmarshal, DataFile.malformed raw) ∧
      GetByID id (DataFile.malformed raw) = (.error .unmarshal, DataFile.malformed raw) ∧
      GetAll (DataFile.malformed raw) = (.error .unmarshal, DataFile.malformed raw) ∧
      GetByStatus status (DataFile.malformed raw)
        = (.error .unmarshal, DataFile.malformed raw) ∧
      Update task (DataFile.malformed raw) = (.error .unmarshal, DataFile.malformed raw) ∧
      Delete id (DataFile.malformed raw) = (.error .unmarshal, DataFile.malformed raw) ∧
      GetNextID (DataFile.malformed raw) = (.error .unmarshal, DataFile.malformed raw) ∧
      (DataFile.malformed raw).hasContents = true ∧
      (DataFile.malformed raw).isTaskArray = false :=
  ⟨rfl, rfl, rfl, rfl, rfl, rfl, rfl, rfl, rfl⟩

/-! ## Timestamps of a task -/

/-- C20, counterexample: a task is created when the clock reads 5 and updated
when it reads 3, the wall clock having been set back between the two runs of
the program. After the update the creation time is still 5 and the update time
is 3, earlier than the creation time. -/
theorem C20_updated_at_before_created_at :
    (applyCalls [TaskCall.update 3 "t" ""] (NewTask 5 1 "a" "b")).CreatedAt = 5 ∧
    (applyCalls [TaskCall.update 3 "t" ""] (NewTask 5 1 "a" "b")).UpdatedAt = 3 ∧
    ¬ (applyCalls [TaskCall.update 3 "t" ""] (NewTask 5 1 "a" "b")).CreatedAt
      ≤ (applyCalls [TaskCall.update 3 "t" ""] (NewTask 5 1 "a" "b")).UpdatedAt := by
  decide

/-- C20, amended: a task built by NewTask and then changed by any sequence of
Update and UpdateStatus calls has, after every step, the creation time it was
built with, whatever the clock read at the calls, and as update time the clock
reading of the latest call so far (of NewTask when there was none). So its
update time is not earlier than its creation time exactly when that latest
reading is not earlier than the reading at creation, and in particular when no
call so far read the clock earlier than NewTask did. -/
theorem C20_created_at_fixed_updated_at_latest_reading (now : Time) (id : GoInt)
    (title description : String) (calls : List TaskCall) (k : Nat) :
    (applyCalls (calls.take k) (NewTask now id title description)).CreatedAt = now.val ∧
    (applyCalls (calls.take k) (NewTask now id title description)).UpdatedAt
      = (latestReading now (calls.take k)).val ∧
    ((applyCalls (calls.take k) (NewTask now id title description)).CreatedAt
        ≤ (applyCalls (calls.take k) (NewTask now id title description)).UpdatedAt
      ↔ now.val ≤ (latestReading now (calls.take k)).val) ∧
    ((∀ c ∈ calls.take k, now.val ≤ c.now.val) →
      (applyCalls (calls.take k) (NewTask now id title description)).CreatedAt
        ≤ (applyCalls (calls.take k) (NewTask now id title description)).UpdatedAt) := by
  have hc : (applyCalls (calls.take k) (NewTask now id title description)).CreatedAt
      = now.val := applyCalls_CreatedAt (calls.take k) (NewTask now id title description)
  have hu : (applyCalls (calls.take k) (NewTask now id title description)).UpdatedAt
      = (latestReading now (calls.take k)).val :=
    applyCalls_UpdatedAt (calls.take k) (NewTask now id title description) now rfl
  refine ⟨hc, hu, by rw [hc, hu], ?_⟩
  intro hclock
  rw [hc, hu]
  rcases latestReading_mem (calls.take k) now with h | ⟨c, hmem, h⟩
  · rw [h]
  · rw [h]
    exact hclock c hmem

/-- Witness of C20: a status change at instant 5 and an update at instant 9 of a
task created at instant 3, looked at after both steps. -/
theorem C20_created_at_fixed_updated_at_latest_reading_witness :
    (applyCalls ([TaskCall.updateStatus 5 TaskStatusDone, TaskCall.update 9 "t" ""].take 2)
        (NewTask 3 1 "a" "b")).CreatedAt = 3 ∧
      (applyCalls ([TaskCall.updateStatus 5 TaskStatusDone, TaskCall.update 9 "t" ""].take 2)
        (NewTask 3 1 "a" "b")).UpdatedAt = 9 ∧
      (applyCalls ([TaskCall.updateStatus 5 TaskStatusDone, TaskCall.update 9 "t" ""].take 2)
        (NewTask 3 1 "a" "b")).CreatedAt
        ≤ (applyCalls ([TaskCall.updateStatus 5 TaskStatusDone,
            TaskCall.update 9 "t" ""].take 2) (NewTask 3 1 "a" "b")).UpdatedAt :=
  ⟨(C20_created_at_fixed_updated_at_latest_reading 3 1 "a" "b"
      [TaskCall.updateStatus 5 TaskStatusDone, TaskCall.update 9 "t" ""] 2).1,
    (C20_created_at_fixed_updated_at_latest_reading 3 1 "a" "b"
      [TaskCall.updateStatus 5 TaskStatusDone, TaskCall.update 9 "t" ""] 2).2.1,
    (C20_created_at_fixed_updated_at_latest_reading 3 1 "a" "b"
      [TaskCall.updateStatus 5 TaskStatusDone, TaskCall.update 9 "t" ""] 2).2.2.2 (by decide)⟩

/-! ## Saving and loading -/

/-- C22: on a store that loads and in which every task has the status todo,
in-progress or done, the list of getPendingTasks followed by the list of
getTasksByStatus(done) is a permutation of the list of getAllTasks and of the
stored collection, so every stored task is counted in the two lists together
as often as it is stored; no task is in both lists, and no pending task is
done. -/
theorem C22_pending_and_done_partition_all (f : DataFile) (ts : List Task)
    (hload : loadTasks f = .ok ts) (hvalid : StatusesValid ts) :
    ∃ (pending doneTasks allTasks : List Task),
      GetPendingTasks f = (.ok pending, f) ∧
      GetTasksByStatus TaskStatusDone f = (.ok doneTasks, f) ∧
      GetAllTasks f = (.ok allTasks, f) ∧
      (pending ++ doneTasks).Perm allTasks ∧
      (pending ++ doneTasks).Perm ts ∧
      (∀ t : Task, pending.count t + doneTasks.count t = ts.count t) ∧
      (∀ t ∈ ts, (t ∈ pending ∧ t ∉ doneTasks) ∨ (t ∉ pending ∧ t ∈ doneTasks)) ∧
      (∀ t ∈ pending, t.Status ≠ TaskStatusDone) := by
  have h13 : TaskStatusToDo ≠ TaskStatusDone := by decide
  have h23 : TaskStatusInProgress ≠ TaskStatusDone := by decide
  have hpend : ∀ t, t ∈ sortByID (ts.filter (fun t => t.Status = TaskStatusToDo)) ++
      sortByID (ts.filter (fun t => t.Status = TaskStatusInProgress)) →
      t.Status ≠ TaskStatusDone := by
    intro t ht
    rcases List.mem_append.mp ht with h | h
    · rw [(sortByID_perm _).mem_iff, List.mem_filter] at h
      have hs : t.Status = TaskStatusToDo := by simpa using h.2
      rw [hs]
      exact h13
    · rw [(sortByID_perm _).mem_iff, List.mem_filter] at h
      have hs : t.Status = TaskStatusInProgress := by simpa using h.2
      rw [hs]
      exact h23
  have hdone : ∀ t, t ∈ sortByID (ts.filter (fun t => t.Status = TaskStatusDone)) ↔
      t ∈ ts ∧ t.Status = TaskStatusDone := by
    intro t
    rw [(sortByID_perm _).mem_iff, List.mem_filter]
    simp
  have hperm : (sortByID (ts.filter (fun t => t.Status = TaskStatusToDo)) ++
      sortByID (ts.filter (fun t => t.Status = TaskStatusInProgress)) ++
      sortByID (ts.filter (fun t => t.Status = TaskStatusDone))).Perm ts :=
    List.Perm.trans
      (List.Perm.append (List.Perm.append (sortByID_perm _) (sortByID_perm _))
        (sortByID_perm _))
      (filter_three_statuses_perm ts hvalid)
  refine ⟨_, _, _, GetPendingTasks_of_load f ts hload,
    GetTasksByStatus_of_load TaskStatusDone f ts hload, GetAllTasks_of_load f ts hload,
    List.Perm.trans hperm (sortByID_perm ts).symm, hperm, ?_, ?_, fun t ht => hpend t ht⟩
  · intro t
    rw [← List.count_append]
    exact hperm.count_eq t
  · intro t ht
    by_cases hs : t.Status = TaskStatusDone
    · exact Or.inr ⟨fun hp => hpend t hp hs, (hdone t).mpr ⟨ht, hs⟩⟩
    · have hmem : t ∈ sortByID (ts.filter (fun t => t.Status = TaskStatusToDo)) ++
          sortByID (ts.filter (fun t => t.Status = TaskStatusInProgress)) ++
          sortByID (ts.filter (fun t => t.Status = TaskStatusDone)) := hperm.mem_iff.mpr ht
      rcases List.mem_append.mp hmem with h | h
      · exact Or.inl ⟨h, fun hd => hs ((hdone t).mp hd).2⟩
      · exact absurd ((hdone t).mp h).2 hs

/-- Witness of C22 on a file with one task of each status. -/
theorem C22_pending_and_done_partition_all_witness :
    ∃ (pending doneTasks allTasks : List Task),
      GetPendingTasks (DataFile.tasks [sampleTask 1 "a" TaskStatusDone,
        sampleTask 2 "b" TaskStatusInProgress, sampleTask 3 "c" TaskStatusToDo])
        = (.ok pending, DataFile.tasks [sampleTask 1 "a" TaskStatusDone,
          sampleTask 2 "b" TaskStatusInProgress, sampleTask 3 "c" TaskStatusToDo]) ∧
      GetTasksByStatus TaskStatusDone (DataFile.tasks [sampleTask 1 "a" TaskStatusDone,
        sampleTask 2 "b" TaskStatusInProgress, sampleTask 3 "c" TaskStatusToDo])
        = (.ok doneTasks, DataFile.tasks [sampleTask 1 "a" TaskStatusDone,
          sampleTask 2 "b" TaskStatusInProgress, sampleTask 3 "c" TaskStatusToDo]) ∧
      GetAllTasks (DataFile.tasks [sampleTask 1 "a" TaskStatusDone,
        sampleTask 2 "b" TaskStatusInProgress, sampleTask 3 "c" TaskStatusToDo])
        = (.ok allTasks, DataFile.tasks [sampleTask 1 "a" TaskStatusDone,
          sampleTask 2 "b" TaskStatusInProgress, sampleTask 3 "c" TaskStatusToDo]) ∧
      (pending ++ doneTasks).Perm allTasks ∧
      (pending ++ doneTasks).Perm [sampleTask 1 "a" TaskStatusDone,
        sampleTask 2 "b" TaskStatusInProgress, sampleTask 3 "c" TaskStatusToDo] ∧
      (∀ t : Task, pending.count t + doneTasks.count t
        = [sampleTask 1 "a" TaskStatusDone, sampleTask 2 "b" TaskStatusInProgress,
            sampleTask 3 "c" TaskStatusToDo].count t) ∧
      (∀ t ∈ [sampleTask 1 "a" TaskStatusDone, sampleTask 2 "b" TaskStatusInProgress,
          sampleTask 3 "c" TaskStatusToDo],
        (t ∈ pending ∧ t ∉ doneTasks) ∨ (t ∉ pending ∧ t ∈ doneTasks)) ∧
      (∀ t ∈ pending, t.Status ≠ TaskStatusDone) :=
  C22_pending_and_done_partition_all
    (DataFile.tasks [sampleTask 1 "a" TaskStatusDone,
      sampleTask 2 "b" TaskStatusInProgress, sampleTask 3 "c" TaskStatusToDo])
    [sampleTask 1 "a" TaskStatusDone, sampleTask 2 "b" TaskStatusInProgress,
      sampleTask 3 "c" TaskStatusToDo] rfl (by decide)

end TaskTracker
